import Mathlib

/-!
Shallow embedding of `src/examples/c/lstypec.c` (function `c_example_lstypec`).

The example drives the libtypec-rs C API.  The library itself is outside the
sources under verification, so its behaviour is modelled by an oracle
environment `Env` giving the return code of every call the example can make,
plus the (pointer, length, memory-size) triple stored by every successful
variable-length call.  The embedded program is a pure function from `Env`
(and the `backend` argument) to the example's return value together with a
trace of the externally visible events: library calls made, assertions
executed, array element accesses, destroyer invocations, error reports, and
the final instance destruction.
-/

namespace Lstypec

/-- Linux errno value for `ENOTSUP`; the C example compares returns against
`-ENOTSUP`. -/
def ENOTSUP : Int := 95

/-- Modelled from the spec: the `OsBackends` enum of the C header (not among
the sources) has `Sysfs = 1`; `0` defers to the platform default. -/
def OsBackends_Sysfs : Nat := 1

/-- Modelled from the spec: the role tag passed to `libtypec_rs_get_pdos`
(`PdoType_Source` / `PdoType_Sink` in the C header). -/
inductive PdoType where
  | Source
  | Sink
deriving DecidableEq, Repr

/-- Modelled from the spec: the source-capabilities interpretation tag; the
example only ever passes the current-supported variant. -/
inductive PdoSourceCapabilitiesType where
  | CurrentSupportedSourceCapabilities
deriving DecidableEq, Repr

/-- Modelled from the spec: recipient tag of `libtypec_rs_get_alternate_modes`
(`Connector`, `SopPrime`, `Sop` in the C header). -/
inductive GetAlternateModesRecipient where
  | Connector
  | SopPrime
  | Sop
deriving DecidableEq, Repr

/-- Modelled from the spec: recipient tag of `libtypec_rs_get_pd_message`. -/
inductive PdMessageRecipient where
  | SopPrime
  | Sop
deriving DecidableEq, Repr

/-- Modelled from the spec: response-type tag of `libtypec_rs_get_pd_message`;
the example only requests Discover Identity. -/
inductive PdMessageResponseType where
  | DiscoverIdentity
deriving DecidableEq, Repr

/-- The (pointer, length, memory-size) triple stored by a successful
variable-length call; `ptr = 0` models a NULL pointer. -/
structure Triple where
  ptr : Nat
  len : Nat
  mem_sz : Nat
deriving DecidableEq, Repr

/-- The two fields of `struct UcsiCapability` that the example reads. -/
structure UcsiCapability where
  num_connectors : Nat
  pd_version : Nat
deriving DecidableEq, Repr

/-- Oracle for the library: return code of every call the example can make,
and the triple stored by each variable-length call when it succeeds.
`new_null` models `libtypec_rs_new` leaving the out-pointer NULL. -/
structure Env where
  new_ret : Int
  new_null : Bool
  caps_ret : Int
  caps : UcsiCapability
  conn_caps_ret : Nat → Int
  pdos_ret : Nat → Bool → PdoType → Int
  pdos_out : Nat → Bool → PdoType → Triple
  cable_ret : Nat → Int
  alt_ret : GetAlternateModesRecipient → Nat → Int
  alt_out : GetAlternateModesRecipient → Nat → Triple
  pd_msg_ret : PdMessageRecipient → Nat → Int

/-- Externally visible events of a run of the example. -/
inductive Event where
  | callNew (backend_type : Nat) (ret : Int)
  | reportError (msg : String)
  | callGetCapabilities (ret : Int)
  | callConnCaps (conn : Nat) (ret : Int)
  | callGetPdos (conn : Nat) (partner : Bool) (offset : Nat) (nr : Nat)
      (ty : PdoType) (sct : PdoSourceCapabilitiesType) (pd_version : Nat) (ret : Int)
  | assertPdos (ptr : Nat)
  | accessElem (t : Triple) (i : Nat)
  | destroyPdos (t : Triple)
  | callCableProps (conn : Nat) (ret : Int)
  | callAltModes (r : GetAlternateModesRecipient) (conn : Nat) (ret : Int)
  | destroyAltModes (t : Triple)
  | callPdMessage (r : PdMessageRecipient) (conn : Nat) (rt : PdMessageResponseType) (ret : Int)
  | destroyInstance
deriving DecidableEq, Repr

/-- Outcome of a straight-line segment of the example: either an early
`return` with a code and the events emitted so far, or the events of the
completed segment. -/
abbrev StepResult := Except (Int × List Event) (List Event)

/-- Sequencing of two segments: an early return in the first discards the
second (it never runs); otherwise event lists concatenate. -/
def seqSteps (a b : StepResult) : StepResult :=
  match a with
  | .error e => .error e
  | .ok evs =>
    match b with
    | .error (r, evs2) => .error (r, evs ++ evs2)
    | .ok evs2 => .ok (evs ++ evs2)

/-- Sequencing of a list of segments. -/
def runSeq : List StepResult → StepResult
  | [] => .ok []
  | s :: rest => seqSteps s (runSeq rest)

/-- Lines 49-58 of lstypec.c: `libtypec_rs_get_conn_capabilities`; any
nonzero return is fatal. -/
def connCapsStep (env : Env) (conn : Nat) : StepResult :=
  let ret := env.conn_caps_ret conn
  let callEv := Event.callConnCaps conn ret
  if ret = 0 then .ok [callEv]
  else .error (ret, [callEv, Event.reportError "Failed to get connector"])

/-- Lines 60-79 (and the three analogous blocks) of lstypec.c:
`libtypec_rs_get_pdos` with offset 0 and nr 0; on success assert the pointer,
print each element, destroy the triple; `-ENOTSUP` is skipped; any other
nonzero return is fatal. -/
def pdosStep (env : Env) (conn : Nat) (partner : Bool) (ty : PdoType) (msg : String) :
    StepResult :=
  let ret := env.pdos_ret conn partner ty
  let callEv := Event.callGetPdos conn partner 0 0 ty
      PdoSourceCapabilitiesType.CurrentSupportedSourceCapabilities env.caps.pd_version ret
  if ret = 0 then
    let t := env.pdos_out conn partner ty
    .ok (callEv :: Event.assertPdos t.ptr ::
      ((List.range t.len).map (Event.accessElem t) ++ [Event.destroyPdos t]))
  else if ret = -ENOTSUP then .ok [callEv]
  else .error (ret, [callEv, Event.reportError msg])

/-- Lines 103-113 of lstypec.c: `libtypec_rs_get_cable_properties`;
`-ENOTSUP` is skipped; any other nonzero return is fatal. -/
def cableStep (env : Env) (conn : Nat) : StepResult :=
  let ret := env.cable_ret conn
  let callEv := Event.callCableProps conn ret
  if ret = 0 then .ok [callEv]
  else if ret = -ENOTSUP then .ok [callEv]
  else .error (ret, [callEv, Event.reportError "Failed to get cable properties"])

/-- Lines 115-152 and 169-183 of lstypec.c: `libtypec_rs_get_alternate_modes`;
on success print each element and destroy the triple; `-ENOTSUP` is skipped;
any other nonzero return is fatal. -/
def altModesStep (env : Env) (r : GetAlternateModesRecipient) (conn : Nat) (msg : String) :
    StepResult :=
  let ret := env.alt_ret r conn
  let callEv := Event.callAltModes r conn ret
  if ret = 0 then
    let t := env.alt_out r conn
    .ok (callEv :: ((List.range t.len).map (Event.accessElem t) ++ [Event.destroyAltModes t]))
  else if ret = -ENOTSUP then .ok [callEv]
  else .error (ret, [callEv, Event.reportError msg])

/-- Lines 154-167 and 185-197 of lstypec.c: `libtypec_rs_get_pd_message` for
Discover Identity; `-ENOTSUP` is skipped; any other nonzero return is fatal. -/
def pdMessageStep (env : Env) (conn : Nat) (r : PdMessageRecipient) (msg : String) :
    StepResult :=
  let ret := env.pd_msg_ret r conn
  let callEv := Event.callPdMessage r conn PdMessageResponseType.DiscoverIdentity ret
  if ret = 0 then .ok [callEv]
  else if ret = -ENOTSUP then .ok [callEv]
  else .error (ret, [callEv, Event.reportError msg])

/-- The eleven per-connector segments of the loop body, in source order
(lines 48-241 of lstypec.c). -/
def connSteps (env : Env) (conn : Nat) : List StepResult :=
  [connCapsStep env conn,
   pdosStep env conn false PdoType.Source "Failed to get the Connector Source PDOs",
   pdosStep env conn false PdoType.Sink "Failed to get the Connector Sink PDOs",
   cableStep env conn,
   altModesStep env GetAlternateModesRecipient.Connector conn "Failed to get connector alt modes",
   altModesStep env GetAlternateModesRecipient.SopPrime conn "Failed to get SOP-prime alt modes",
   pdMessageStep env conn PdMessageRecipient.SopPrime
     "Failed to get the DiscoverIdentity PD message for SOP-prime",
   altModesStep env GetAlternateModesRecipient.Sop conn "Failed to get SOP alt modes",
   pdMessageStep env conn PdMessageRecipient.Sop
     "Failed to get the DiscoverIdentity PD message for SOP",
   pdosStep env conn true PdoType.Source "Failed to get Partner Source PDOs",
   pdosStep env conn true PdoType.Sink "Failed to get Partner Sink PDOs"]

/-- The connector loop of lines 46-242: connectors `0, 1, ..., n-1` in
increasing order. -/
def loopConnectors (env : Env) : Nat → StepResult
  | 0 => .ok []
  | n + 1 => seqSteps (loopConnectors env n) (runSeq (connSteps env n))

/-- Line 26 of lstypec.c: `backend ? backend : OsBackends_Sysfs`. -/
def backend_type (backend : Nat) : Nat :=
  if backend ≠ 0 then backend else OsBackends_Sysfs

/-- The embedding of `c_example_lstypec` (lines 20-248 of lstypec.c):
returns the function's return value and the trace of its run. -/
def c_example_lstypec (env : Env) (backend : Nat) : Int × List Event :=
  let evNew := Event.callNew (backend_type backend) env.new_ret
  if env.new_null then
    (env.new_ret, [evNew, Event.reportError "Failed to create TypecRs instance"])
  else
    let evCaps := Event.callGetCapabilities env.caps_ret
    if env.caps_ret ≠ 0 then
      (env.caps_ret, [evNew, evCaps, Event.reportError "Failed to get capabilities"])
    else
      match loopConnectors env env.caps.num_connectors with
      | .error (r, evs) => (r, evNew :: evCaps :: evs)
      | .ok evs => (0, evNew :: evCaps :: (evs ++ [Event.destroyInstance]))

/-- The triples passed to `libtypec_rs_destroy_pdos`, in trace order. -/
def destroyedPdosTriples (tr : List Event) : List Triple :=
  tr.filterMap fun e =>
    match e with
    | .destroyPdos t => some t
    | _ => none

/-- The triples stored by the successful `libtypec_rs_get_pdos` calls of the
trace, in trace order. -/
def storedPdosTriples (env : Env) (tr : List Event) : List Triple :=
  tr.filterMap fun e =>
    match e with
    | .callGetPdos conn partner _ _ ty _ _ ret =>
      if ret = 0 then some (env.pdos_out conn partner ty) else none
    | _ => none

/-- The triples passed to `libtypec_rs_destroy_alternate_modes`, in trace
order. -/
def destroyedAltTriples (tr : List Event) : List Triple :=
  tr.filterMap fun e =>
    match e with
    | .destroyAltModes t => some t
    | _ => none

/-- The triples stored by the successful `libtypec_rs_get_alternate_modes`
calls of the trace, in trace order. -/
def storedAltTriples (env : Env) (tr : List Event) : List Triple :=
  tr.filterMap fun e =>
    match e with
    | .callAltModes r conn ret =>
      if ret = 0 then some (env.alt_out r conn) else none
    | _ => none

/-- The connector indices passed to `libtypec_rs_get_conn_capabilities`, in
trace order. -/
def connCapsIndices (tr : List Event) : List Nat :=
  tr.filterMap fun e =>
    match e with
    | .callConnCaps conn _ => some conn
    | _ => none

/-- The (connector, partner, role) sites of the `libtypec_rs_get_pdos` calls
of the trace, in trace order. -/
def pdosCallSites (tr : List Event) : List (Nat × Bool × PdoType) :=
  tr.filterMap fun e =>
    match e with
    | .callGetPdos conn partner _ _ ty _ _ _ => some (conn, partner, ty)
    | _ => none

/-- The pdos call sites a complete run visits for connectors `0..n-1`:
local source, local sink, partner source, partner sink, per connector. -/
def expectedPdosSites : Nat → List (Nat × Bool × PdoType)
  | 0 => []
  | n + 1 => expectedPdosSites n ++
      [(n, false, PdoType.Source), (n, false, PdoType.Sink),
       (n, true, PdoType.Source), (n, true, PdoType.Sink)]

/-! ### Basic machinery on step results -/

/-- Events emitted by a segment, whether it returned early or completed. -/
def evsOf : StepResult → List Event
  | .error (_, evs) => evs
  | .ok evs => evs

/-- The early-return code of a segment, if it returned early. -/
def errOf : StepResult → Option Int
  | .error (r, _) => some r
  | .ok _ => none

theorem errOf_eq_none_iff (s : StepResult) : errOf s = none ↔ ∃ evs, s = .ok evs := by
  cases s with
  | error x => obtain ⟨r, evs⟩ := x; simp [errOf]
  | ok evs => simp [errOf]

theorem errOf_seqSteps_err (r : Int) (evs : List Event) (b : StepResult) :
    errOf (seqSteps (.error (r, evs)) b) = some r := rfl

theorem errOf_seqSteps_ok (evs : List Event) (b : StepResult) :
    errOf (seqSteps (.ok evs) b) = errOf b := by
  cases b with
  | error y => obtain ⟨r, evs2⟩ := y; rfl
  | ok evs2 => rfl

theorem seqSteps_ok_inv {a b : StepResult} {evs : List Event}
    (h : seqSteps a b = .ok evs) :
    ∃ e1 e2, a = .ok e1 ∧ b = .ok e2 ∧ evs = e1 ++ e2 := by
  cases a with
  | error x => obtain ⟨r, evs'⟩ := x; simp [seqSteps] at h
  | ok e1 =>
    cases b with
    | error y => obtain ⟨r, evs2⟩ := y; simp [seqSteps] at h
    | ok e2 =>
      simp only [seqSteps] at h
      exact ⟨e1, e2, rfl, rfl, (Except.ok.inj h).symm⟩

theorem mem_evsOf_seqSteps {e : Event} {a b : StepResult}
    (h : e ∈ evsOf (seqSteps a b)) : e ∈ evsOf a ∨ e ∈ evsOf b := by
  cases a with
  | error x => obtain ⟨r, evs'⟩ := x; exact Or.inl h
  | ok e1 =>
    cases b with
    | error y =>
      obtain ⟨r, evs2⟩ := y
      simp only [seqSteps, evsOf] at h ⊢
      exact List.mem_append.mp h
    | ok e2 =>
      simp only [seqSteps, evsOf] at h ⊢
      exact List.mem_append.mp h

theorem mem_evsOf_runSeq {e : Event} {steps : List StepResult}
    (h : e ∈ evsOf (runSeq steps)) : ∃ s ∈ steps, e ∈ evsOf s := by
  induction steps with
  | nil => simp [runSeq, evsOf] at h
  | cons s rest ih =>
    rcases mem_evsOf_seqSteps h with h' | h'
    · exact ⟨s, List.mem_cons_self s rest, h'⟩
    · obtain ⟨s', hs', he'⟩ := ih h'
      exact ⟨s', List.mem_cons_of_mem s hs', he'⟩

theorem mem_evsOf_loop {env : Env} {e : Event} {n : Nat}
    (h : e ∈ evsOf (loopConnectors env n)) :
    ∃ conn, conn < n ∧ ∃ s ∈ connSteps env conn, e ∈ evsOf s := by
  induction n with
  | zero => simp [loopConnectors, evsOf] at h
  | succ n ih =>
    rcases mem_evsOf_seqSteps h with h' | h'
    · obtain ⟨conn, hlt, hs⟩ := ih h'
      exact ⟨conn, Nat.lt_succ_of_lt hlt, hs⟩
    · obtain ⟨s, hs, he⟩ := mem_evsOf_runSeq h'
      exact ⟨n, Nat.lt_succ_self n, s, hs, he⟩

theorem errOf_runSeq_inv {steps : List StepResult} {r : Int}
    (h : errOf (runSeq steps) = some r) : ∃ s ∈ steps, errOf s = some r := by
  induction steps with
  | nil => simp [runSeq, errOf] at h
  | cons s rest ih =>
    cases s with
    | error x =>
      obtain ⟨r', evs'⟩ := x
      rw [runSeq, errOf_seqSteps_err] at h
      exact ⟨Except.error (r', evs'), List.mem_cons_self _ _, h⟩
    | ok evs' =>
      rw [runSeq, errOf_seqSteps_ok] at h
      obtain ⟨s', hs', h'⟩ := ih h
      exact ⟨s', List.mem_cons_of_mem _ hs', h'⟩

theorem errOf_loop_inv {env : Env} {n : Nat} {r : Int}
    (h : errOf (loopConnectors env n) = some r) :
    ∃ conn, conn < n ∧ ∃ s ∈ connSteps env conn, errOf s = some r := by
  induction n with
  | zero => simp [loopConnectors, errOf] at h
  | succ n ih =>
    cases hl : loopConnectors env n with
    | error x =>
      obtain ⟨r', evs'⟩ := x
      rw [loopConnectors, hl, errOf_seqSteps_err] at h
      obtain ⟨conn, hlt, hs⟩ := ih (by rw [hl]; exact h)
      exact ⟨conn, Nat.lt_succ_of_lt hlt, hs⟩
    | ok evs' =>
      rw [loopConnectors, hl, errOf_seqSteps_ok] at h
      obtain ⟨s, hs, h'⟩ := errOf_runSeq_inv h
      exact ⟨n, Nat.lt_succ_self n, s, hs, h'⟩

theorem errOf_runSeq_none {steps : List StepResult}
    (h : ∀ s ∈ steps, errOf s = none) : errOf (runSeq steps) = none := by
  induction steps with
  | nil => rfl
  | cons s rest ih =>
    obtain ⟨evs, hs⟩ := (errOf_eq_none_iff s).mp (h s (List.mem_cons_self s rest))
    rw [runSeq, hs, errOf_seqSteps_ok]
    exact ih fun s' hs' => h s' (List.mem_cons_of_mem s hs')

theorem errOf_loop_none {env : Env} {n : Nat}
    (h : ∀ conn, conn < n → ∀ s ∈ connSteps env conn, errOf s = none) :
    errOf (loopConnectors env n) = none := by
  induction n with
  | zero => rfl
  | succ n ih =>
    have h1 : errOf (loopConnectors env n) = none :=
      ih fun c hc => h c (Nat.lt_succ_of_lt hc)
    obtain ⟨evs, hl⟩ := (errOf_eq_none_iff _).mp h1
    rw [loopConnectors, hl, errOf_seqSteps_ok]
    exact errOf_runSeq_none (h n (Nat.lt_succ_self n))

/-! ### Branch characterizations of the per-connector segments -/

theorem evsOf_connCapsStep_ok {env : Env} {conn : Nat} (h : env.conn_caps_ret conn = 0) :
    evsOf (connCapsStep env conn) = [Event.callConnCaps conn (env.conn_caps_ret conn)] := by
  simp only [connCapsStep]
  rw [if_pos h]
  rfl

theorem evsOf_connCapsStep_err {env : Env} {conn : Nat} (h : env.conn_caps_ret conn ≠ 0) :
    evsOf (connCapsStep env conn) =
      [Event.callConnCaps conn (env.conn_caps_ret conn),
       Event.reportError "Failed to get connector"] := by
  simp only [connCapsStep]
  rw [if_neg h]
  rfl

theorem errOf_connCapsStep_ok {env : Env} {conn : Nat} (h : env.conn_caps_ret conn = 0) :
    errOf (connCapsStep env conn) = none := by
  simp only [connCapsStep]
  rw [if_pos h]
  rfl

theorem errOf_connCapsStep_err {env : Env} {conn : Nat} (h : env.conn_caps_ret conn ≠ 0) :
    errOf (connCapsStep env conn) = some (env.conn_caps_ret conn) := by
  simp only [connCapsStep]
  rw [if_neg h]
  rfl

theorem evsOf_pdosStep_ok {env : Env} {conn : Nat} {partner : Bool} {ty : PdoType}
    (msg : String) (h : env.pdos_ret conn partner ty = 0) :
    evsOf (pdosStep env conn partner ty msg) =
      Event.callGetPdos conn partner 0 0 ty
          PdoSourceCapabilitiesType.CurrentSupportedSourceCapabilities
          env.caps.pd_version (env.pdos_ret conn partner ty) ::
        Event.assertPdos (env.pdos_out conn partner ty).ptr ::
        ((List.range (env.pdos_out conn partner ty).len).map
            (Event.accessElem (env.pdos_out conn partner ty)) ++
          [Event.destroyPdos (env.pdos_out conn partner ty)]) := by
  simp only [pdosStep]
  rw [if_pos h]
  rfl

theorem evsOf_pdosStep_notsup {env : Env} {conn : Nat} {partner : Bool} {ty : PdoType}
    (msg : String) (h : env.pdos_ret conn partner ty = -ENOTSUP) :
    evsOf (pdosStep env conn partner ty msg) =
      [Event.callGetPdos conn partner 0 0 ty
        PdoSourceCapabilitiesType.CurrentSupportedSourceCapabilities
        env.caps.pd_version (env.pdos_ret conn partner ty)] := by
  have h0 : env.pdos_ret conn partner ty ≠ 0 := by rw [h]; decide
  simp only [pdosStep]
  rw [if_neg h0, if_pos h]
  rfl

theorem evsOf_pdosStep_err {env : Env} {conn : Nat} {partner : Bool} {ty : PdoType}
    (msg : String) (h0 : env.pdos_ret conn partner ty ≠ 0)
    (h1 : env.pdos_ret conn partner ty ≠ -ENOTSUP) :
    evsOf (pdosStep env conn partner ty msg) =
      [Event.callGetPdos conn partner 0 0 ty
        PdoSourceCapabilitiesType.CurrentSupportedSourceCapabilities
        env.caps.pd_version (env.pdos_ret conn partner ty),
       Event.reportError msg] := by
  simp only [pdosStep]
  rw [if_neg h0, if_neg h1]
  rfl

theorem errOf_pdosStep_ok {env : Env} {conn : Nat} {partner : Bool} {ty : PdoType}
    (msg : String) (h : env.pdos_ret conn partner ty = 0) :
    errOf (pdosStep env conn partner ty msg) = none := by
  simp only [pdosStep]
  rw [if_pos h]
  rfl

theorem errOf_pdosStep_notsup {env : Env} {conn : Nat} {partner : Bool} {ty : PdoType}
    (msg : String) (h : env.pdos_ret conn partner ty = -ENOTSUP) :
    errOf (pdosStep env conn partner ty msg) = none := by
  have h0 : env.pdos_ret conn partner ty ≠ 0 := by rw [h]; decide
  simp only [pdosStep]
  rw [if_neg h0, if_pos h]
  rfl

theorem errOf_pdosStep_err {env : Env} {conn : Nat} {partner : Bool} {ty : PdoType}
    (msg : String) (h0 : env.pdos_ret conn partner ty ≠ 0)
    (h1 : env.pdos_ret conn partner ty ≠ -ENOTSUP) :
    errOf (pdosStep env conn partner ty msg) = some (env.pdos_ret conn partner ty) := by
  simp only [pdosStep]
  rw [if_neg h0, if_neg h1]
  rfl

theorem evsOf_cableStep_nonfatal {env : Env} {conn : Nat}
    (h : env.cable_ret conn = 0 ∨ env.cable_ret conn = -ENOTSUP) :
    evsOf (cableStep env conn) = [Event.callCableProps conn (env.cable_ret conn)] := by
  rcases h with h | h
  · simp only [cableStep]
    rw [if_pos h]
    rfl
  · have h0 : env.cable_ret conn ≠ 0 := by rw [h]; decide
    simp only [cableStep]
    rw [if_neg h0, if_pos h]
    rfl

theorem evsOf_cableStep_err {env : Env} {conn : Nat} (h0 : env.cable_ret conn ≠ 0)
    (h1 : env.cable_ret conn ≠ -ENOTSUP) :
    evsOf (cableStep env conn) =
      [Event.callCableProps conn (env.cable_ret conn),
       Event.reportError "Failed to get cable properties"] := by
  simp only [cableStep]
  rw [if_neg h0, if_neg h1]
  rfl

theorem errOf_cableStep_nonfatal {env : Env} {conn : Nat}
    (h : env.cable_ret conn = 0 ∨ env.cable_ret conn = -ENOTSUP) :
    errOf (cableStep env conn) = none := by
  rcases h with h | h
  · simp only [cableStep]
    rw [if_pos h]
    rfl
  · have h0 : env.cable_ret conn ≠ 0 := by rw [h]; decide
    simp only [cableStep]
    rw [if_neg h0, if_pos h]
    rfl

theorem errOf_cableStep_err {env : Env} {conn : Nat} (h0 : env.cable_ret conn ≠ 0)
    (h1 : env.cable_ret conn ≠ -ENOTSUP) :
    errOf (cableStep env conn) = some (env.cable_ret conn) := by
  simp only [cableStep]
  rw [if_neg h0, if_neg h1]
  rfl

theorem evsOf_altModesStep_ok {env : Env} {r : GetAlternateModesRecipient} {conn : Nat}
    (msg : String) (h : env.alt_ret r conn = 0) :
    evsOf (altModesStep env r conn msg) =
      Event.callAltModes r conn (env.alt_ret r conn) ::
        ((List.range (env.alt_out r conn).len).map (Event.accessElem (env.alt_out r conn)) ++
          [Event.destroyAltModes (env.alt_out r conn)]) := by
  simp only [altModesStep]
  rw [if_pos h]
  rfl

theorem evsOf_altModesStep_notsup {env : Env} {r : GetAlternateModesRecipient} {conn : Nat}
    (msg : String) (h : env.alt_ret r conn = -ENOTSUP) :
    evsOf (altModesStep env r conn msg) =
      [Event.callAltModes r conn (env.alt_ret r conn)] := by
  have h0 : env.alt_ret r conn ≠ 0 := by rw [h]; decide
  simp only [altModesStep]
  rw [if_neg h0, if_pos h]
  rfl

theorem evsOf_altModesStep_err {env : Env} {r : GetAlternateModesRecipient} {conn : Nat}
    (msg : String) (h0 : env.alt_ret r conn ≠ 0) (h1 : env.alt_ret r conn ≠ -ENOTSUP) :
    evsOf (altModesStep env r conn msg) =
      [Event.callAltModes r conn (env.alt_ret r conn), Event.reportError msg] := by
  simp only [altModesStep]
  rw [if_neg h0, if_neg h1]
  rfl

theorem errOf_altModesStep_ok {env : Env} {r : GetAlternateModesRecipient} {conn : Nat}
    (msg : String) (h : env.alt_ret r conn = 0) :
    errOf (altModesStep env r conn msg) = none := by
  simp only [altModesStep]
  rw [if_pos h]
  rfl

theorem errOf_altModesStep_notsup {env : Env} {r : GetAlternateModesRecipient} {conn : Nat}
    (msg : String) (h : env.alt_ret r conn = -ENOTSUP) :
    errOf (altModesStep env r conn msg) = none := by
  have h0 : env.alt_ret r conn ≠ 0 := by rw [h]; decide
  simp only [altModesStep]
  rw [if_neg h0, if_pos h]
  rfl

theorem errOf_altModesStep_err {env : Env} {r : GetAlternateModesRecipient} {conn : Nat}
    (msg : String) (h0 : env.alt_ret r conn ≠ 0) (h1 : env.alt_ret r conn ≠ -ENOTSUP) :
    errOf (altModesStep env r conn msg) = some (env.alt_ret r conn) := by
  simp only [altModesStep]
  rw [if_neg h0, if_neg h1]
  rfl

theorem evsOf_pdMessageStep_nonfatal {env : Env} {conn : Nat} {r : PdMessageRecipient}
    (msg : String) (h : env.pd_msg_ret r conn = 0 ∨ env.pd_msg_ret r conn = -ENOTSUP) :
    evsOf (pdMessageStep env conn r msg) =
      [Event.callPdMessage r conn PdMessageResponseType.DiscoverIdentity
        (env.pd_msg_ret r conn)] := by
  rcases h with h | h
  · simp only [pdMessageStep]
    rw [if_pos h]
    rfl
  · have h0 : env.pd_msg_ret r conn ≠ 0 := by rw [h]; decide
    simp only [pdMessageStep]
    rw [if_neg h0, if_pos h]
    rfl

theorem evsOf_pdMessageStep_err {env : Env} {conn : Nat} {r : PdMessageRecipient}
    (msg : String) (h0 : env.pd_msg_ret r conn ≠ 0) (h1 : env.pd_msg_ret r conn ≠ -ENOTSUP) :
    evsOf (pdMessageStep env conn r msg) =
      [Event.callPdMessage r conn PdMessageResponseType.DiscoverIdentity
        (env.pd_msg_ret r conn),
       Event.reportError msg] := by
  simp only [pdMessageStep]
  rw [if_neg h0, if_neg h1]
  rfl

theorem errOf_pdMessageStep_nonfatal {env : Env} {conn : Nat} {r : PdMessageRecipient}
    (msg : String) (h : env.pd_msg_ret r conn = 0 ∨ env.pd_msg_ret r conn = -ENOTSUP) :
    errOf (pdMessageStep env conn r msg) = none := by
  rcases h with h | h
  · simp only [pdMessageStep]
    rw [if_pos h]
    rfl
  · have h0 : env.pd_msg_ret r conn ≠ 0 := by rw [h]; decide
    simp only [pdMessageStep]
    rw [if_neg h0, if_pos h]
    rfl

theorem errOf_pdMessageStep_err {env : Env} {conn : Nat} {r : PdMessageRecipient}
    (msg : String) (h0 : env.pd_msg_ret r conn ≠ 0) (h1 : env.pd_msg_ret r conn ≠ -ENOTSUP) :
    errOf (pdMessageStep env conn r msg) = some (env.pd_msg_ret r conn) := by
  simp only [pdMessageStep]
  rw [if_neg h0, if_neg h1]
  rfl

/-! ### Trace query functions: append and access-map lemmas -/

theorem filterMap_map_access_none {β : Type} (f : Event → Option β)
    (hf : ∀ t i, f (Event.accessElem t i) = none) (t : Triple) (l : List Nat) :
    (l.map (Event.accessElem t)).filterMap f = [] := by
  induction l with
  | nil => rfl
  | cons a l ih => simp [List.filterMap_cons, hf, ih]

theorem destroyedPdosTriples_append (l1 l2 : List Event) :
    destroyedPdosTriples (l1 ++ l2) = destroyedPdosTriples l1 ++ destroyedPdosTriples l2 := by
  simp [destroyedPdosTriples]

theorem storedPdosTriples_append (env : Env) (l1 l2 : List Event) :
    storedPdosTriples env (l1 ++ l2) =
      storedPdosTriples env l1 ++ storedPdosTriples env l2 := by
  simp [storedPdosTriples]

theorem destroyedAltTriples_append (l1 l2 : List Event) :
    destroyedAltTriples (l1 ++ l2) = destroyedAltTriples l1 ++ destroyedAltTriples l2 := by
  simp [destroyedAltTriples]

theorem storedAltTriples_append (env : Env) (l1 l2 : List Event) :
    storedAltTriples env (l1 ++ l2) =
      storedAltTriples env l1 ++ storedAltTriples env l2 := by
  simp [storedAltTriples]

theorem connCapsIndices_append (l1 l2 : List Event) :
    connCapsIndices (l1 ++ l2) = connCapsIndices l1 ++ connCapsIndices l2 := by
  simp [connCapsIndices]

theorem pdosCallSites_append (l1 l2 : List Event) :
    pdosCallSites (l1 ++ l2) = pdosCallSites l1 ++ pdosCallSites l2 := by
  simp [pdosCallSites]

theorem destroyedPdosTriples_access_map (t : Triple) (l : List Nat) :
    destroyedPdosTriples (l.map (Event.accessElem t)) = [] :=
  filterMap_map_access_none _ (fun _ _ => rfl) t l

theorem storedPdosTriples_access_map (env : Env) (t : Triple) (l : List Nat) :
    storedPdosTriples env (l.map (Event.accessElem t)) = [] :=
  filterMap_map_access_none _ (fun _ _ => rfl) t l

theorem destroyedAltTriples_access_map (t : Triple) (l : List Nat) :
    destroyedAltTriples (l.map (Event.accessElem t)) = [] :=
  filterMap_map_access_none _ (fun _ _ => rfl) t l

theorem storedAltTriples_access_map (env : Env) (t : Triple) (l : List Nat) :
    storedAltTriples env (l.map (Event.accessElem t)) = [] :=
  filterMap_map_access_none _ (fun _ _ => rfl) t l

theorem connCapsIndices_access_map (t : Triple) (l : List Nat) :
    connCapsIndices (l.map (Event.accessElem t)) = [] :=
  filterMap_map_access_none _ (fun _ _ => rfl) t l

theorem pdosCallSites_access_map (t : Triple) (l : List Nat) :
    pdosCallSites (l.map (Event.accessElem t)) = [] :=
  filterMap_map_access_none _ (fun _ _ => rfl) t l

/-! ### Query values of segments that completed -/

theorem connCapsStep_ok_queries {env : Env} {conn : Nat} {evs : List Event}
    (h : connCapsStep env conn = .ok evs) :
    connCapsIndices evs = [conn] ∧ pdosCallSites evs = [] := by
  simp only [connCapsStep] at h
  split at h
  · obtain rfl := Except.ok.inj h
    simp [connCapsIndices, pdosCallSites]
  · simp at h

theorem pdosStep_ok_queries {env : Env} {conn : Nat} {partner : Bool} {ty : PdoType}
    {msg : String} {evs : List Event} (h : pdosStep env conn partner ty msg = .ok evs) :
    connCapsIndices evs = [] ∧ pdosCallSites evs = [(conn, partner, ty)] := by
  simp only [pdosStep] at h
  split at h
  · obtain rfl := Except.ok.inj h
    simp [connCapsIndices, pdosCallSites, connCapsIndices_append, pdosCallSites_append,
      connCapsIndices_access_map, pdosCallSites_access_map]
  · split at h
    · obtain rfl := Except.ok.inj h
      simp [connCapsIndices, pdosCallSites]
    · simp at h

theorem cableStep_ok_queries {env : Env} {conn : Nat} {evs : List Event}
    (h : cableStep env conn = .ok evs) :
    connCapsIndices evs = [] ∧ pdosCallSites evs = [] := by
  simp only [cableStep] at h
  split at h
  · obtain rfl := Except.ok.inj h
    simp [connCapsIndices, pdosCallSites]
  · split at h
    · obtain rfl := Except.ok.inj h
      simp [connCapsIndices, pdosCallSites]
    · simp at h

theorem altModesStep_ok_queries {env : Env} {r : GetAlternateModesRecipient} {conn : Nat}
    {msg : String} {evs : List Event} (h : altModesStep env r conn msg = .ok evs) :
    connCapsIndices evs = [] ∧ pdosCallSites evs = [] := by
  simp only [altModesStep] at h
  split at h
  · obtain rfl := Except.ok.inj h
    simp [connCapsIndices, pdosCallSites, connCapsIndices_append, pdosCallSites_append,
      connCapsIndices_access_map, pdosCallSites_access_map]
  · split at h
    · obtain rfl := Except.ok.inj h
      simp [connCapsIndices, pdosCallSites]
    · simp at h

theorem pdMessageStep_ok_queries {env : Env} {conn : Nat} {r : PdMessageRecipient}
    {msg : String} {evs : List Event} (h : pdMessageStep env conn r msg = .ok evs) :
    connCapsIndices evs = [] ∧ pdosCallSites evs = [] := by
  simp only [pdMessageStep] at h
  split at h
  · obtain rfl := Except.ok.inj h
    simp [connCapsIndices, pdosCallSites]
  · split at h
    · obtain rfl := Except.ok.inj h
      simp [connCapsIndices, pdosCallSites]
    · simp at h

theorem connSteps_ok_queries {env : Env} {conn : Nat} {evs : List Event}
    (h : runSeq (connSteps env conn) = .ok evs) :
    connCapsIndices evs = [conn] ∧
    pdosCallSites evs =
      [(conn, false, PdoType.Source), (conn, false, PdoType.Sink),
       (conn, true, PdoType.Source), (conn, true, PdoType.Sink)] := by
  simp only [connSteps, runSeq] at h
  obtain ⟨e1, r1, h1, ha1, rfl⟩ := seqSteps_ok_inv h
  obtain ⟨e2, r2, h2, ha2, rfl⟩ := seqSteps_ok_inv ha1
  obtain ⟨e3, r3, h3, ha3, rfl⟩ := seqSteps_ok_inv ha2
  obtain ⟨e4, r4, h4, ha4, rfl⟩ := seqSteps_ok_inv ha3
  obtain ⟨e5, r5, h5, ha5, rfl⟩ := seqSteps_ok_inv ha4
  obtain ⟨e6, r6, h6, ha6, rfl⟩ := seqSteps_ok_inv ha5
  obtain ⟨e7, r7, h7, ha7, rfl⟩ := seqSteps_ok_inv ha6
  obtain ⟨e8, r8, h8, ha8, rfl⟩ := seqSteps_ok_inv ha7
  obtain ⟨e9, r9, h9, ha9, rfl⟩ := seqSteps_ok_inv ha8
  obtain ⟨e10, r10, h10, ha10, rfl⟩ := seqSteps_ok_inv ha9
  obtain ⟨e11, r11, h11, ha11, rfl⟩ := seqSteps_ok_inv ha10
  obtain rfl := (Except.ok.inj ha11).symm
  obtain ⟨hc1, hp1⟩ := connCapsStep_ok_queries h1
  obtain ⟨hc2, hp2⟩ := pdosStep_ok_queries h2
  obtain ⟨hc3, hp3⟩ := pdosStep_ok_queries h3
  obtain ⟨hc4, hp4⟩ := cableStep_ok_queries h4
  obtain ⟨hc5, hp5⟩ := altModesStep_ok_queries h5
  obtain ⟨hc6, hp6⟩ := altModesStep_ok_queries h6
  obtain ⟨hc7, hp7⟩ := pdMessageStep_ok_queries h7
  obtain ⟨hc8, hp8⟩ := altModesStep_ok_queries h8
  obtain ⟨hc9, hp9⟩ := pdMessageStep_ok_queries h9
  obtain ⟨hc10, hp10⟩ := pdosStep_ok_queries h10
  obtain ⟨hc11, hp11⟩ := pdosStep_ok_queries h11
  constructor
  · simp [connCapsIndices_append, hc1, hc2, hc3, hc4, hc5, hc6, hc7, hc8, hc9, hc10, hc11]
  · simp [pdosCallSites_append, hp1, hp2, hp3, hp4, hp5, hp6, hp7, hp8, hp9, hp10, hp11]

theorem loop_ok_queries {env : Env} {n : Nat} {evs : List Event}
    (h : loopConnectors env n = .ok evs) :
    connCapsIndices evs = List.range n ∧ pdosCallSites evs = expectedPdosSites n := by
  induction n generalizing evs with
  | zero =>
    rw [loopConnectors] at h
    obtain rfl := (Except.ok.inj h).symm
    simp [connCapsIndices, pdosCallSites, expectedPdosSites]
  | succ n ih =>
    rw [loopConnectors] at h
    obtain ⟨e1, e2, h1, h2, rfl⟩ := seqSteps_ok_inv h
    obtain ⟨hc1, hp1⟩ := ih h1
    obtain ⟨hc2, hp2⟩ := connSteps_ok_queries h2
    constructor
    · simp [connCapsIndices_append, hc1, hc2, List.range_succ]
    · simp [pdosCallSites_append, hp1, hp2, expectedPdosSites]

/-! ### Error-code inversion -/

theorem errOf_connCapsStep_inv {env : Env} {conn : Nat} {r : Int}
    (h : errOf (connCapsStep env conn) = some r) :
    r = env.conn_caps_ret conn ∧ env.conn_caps_ret conn ≠ 0 := by
  by_cases h0 : env.conn_caps_ret conn = 0
  · rw [errOf_connCapsStep_ok h0] at h
    simp at h
  · rw [errOf_connCapsStep_err h0] at h
    exact ⟨(Option.some.inj h).symm, h0⟩

theorem errOf_pdosStep_inv {env : Env} {conn : Nat} {partner : Bool} {ty : PdoType}
    {msg : String} {r : Int} (h : errOf (pdosStep env conn partner ty msg) = some r) :
    r = env.pdos_ret conn partner ty ∧ env.pdos_ret conn partner ty ≠ 0 ∧
      env.pdos_ret conn partner ty ≠ -ENOTSUP := by
  by_cases h0 : env.pdos_ret conn partner ty = 0
  · rw [errOf_pdosStep_ok msg h0] at h
    simp at h
  · by_cases h1 : env.pdos_ret conn partner ty = -ENOTSUP
    · rw [errOf_pdosStep_notsup msg h1] at h
      simp at h
    · rw [errOf_pdosStep_err msg h0 h1] at h
      exact ⟨(Option.some.inj h).symm, h0, h1⟩

theorem errOf_cableStep_inv {env : Env} {conn : Nat} {r : Int}
    (h : errOf (cableStep env conn) = some r) :
    r = env.cable_ret conn ∧ env.cable_ret conn ≠ 0 ∧ env.cable_ret conn ≠ -ENOTSUP := by
  by_cases h0 : env.cable_ret conn = 0
  · rw [errOf_cableStep_nonfatal (Or.inl h0)] at h
    simp at h
  · by_cases h1 : env.cable_ret conn = -ENOTSUP
    · rw [errOf_cableStep_nonfatal (Or.inr h1)] at h
      simp at h
    · rw [errOf_cableStep_err h0 h1] at h
      exact ⟨(Option.some.inj h).symm, h0, h1⟩

theorem errOf_altModesStep_inv {env : Env} {rc : GetAlternateModesRecipient} {conn : Nat}
    {msg : String} {r : Int} (h : errOf (altModesStep env rc conn msg) = some r) :
    r = env.alt_ret rc conn ∧ env.alt_ret rc conn ≠ 0 ∧ env.alt_ret rc conn ≠ -ENOTSUP := by
  by_cases h0 : env.alt_ret rc conn = 0
  · rw [errOf_altModesStep_ok msg h0] at h
    simp at h
  · by_cases h1 : env.alt_ret rc conn = -ENOTSUP
    · rw [errOf_altModesStep_notsup msg h1] at h
      simp at h
    · rw [errOf_altModesStep_err msg h0 h1] at h
      exact ⟨(Option.some.inj h).symm, h0, h1⟩

theorem errOf_pdMessageStep_inv {env : Env} {conn : Nat} {rc : PdMessageRecipient}
    {msg : String} {r : Int} (h : errOf (pdMessageStep env conn rc msg) = some r) :
    r = env.pd_msg_ret rc conn ∧ env.pd_msg_ret rc conn ≠ 0 ∧
      env.pd_msg_ret rc conn ≠ -ENOTSUP := by
  by_cases h0 : env.pd_msg_ret rc conn = 0
  · rw [errOf_pdMessageStep_nonfatal msg (Or.inl h0)] at h
    simp at h
  · by_cases h1 : env.pd_msg_ret rc conn = -ENOTSUP
    · rw [errOf_pdMessageStep_nonfatal msg (Or.inr h1)] at h
      simp at h
    · rw [errOf_pdMessageStep_err msg h0 h1] at h
      exact ⟨(Option.some.inj h).symm, h0, h1⟩

theorem connSteps_errOf_inv {env : Env} {conn : Nat} {s : StepResult} {r : Int}
    (hs : s ∈ connSteps env conn) (h : errOf s = some r) :
    r ≠ 0 ∧
      (r = env.conn_caps_ret conn ∨
       (∃ p ty, r = env.pdos_ret conn p ty) ∨
       r = env.cable_ret conn ∨
       (∃ rc, r = env.alt_ret rc conn) ∨
       (∃ rc, r = env.pd_msg_ret rc conn)) := by
  simp only [connSteps, List.mem_cons, List.not_mem_nil, or_false] at hs
  rcases hs with rfl | rfl | rfl | rfl | rfl | rfl | rfl | rfl | rfl | rfl | rfl
  · obtain ⟨h1, h2⟩ := errOf_connCapsStep_inv h
    subst h1
    exact ⟨h2, Or.inl rfl⟩
  · obtain ⟨h1, h2, _⟩ := errOf_pdosStep_inv h
    subst h1
    exact ⟨h2, Or.inr (Or.inl ⟨_, _, rfl⟩)⟩
  · obtain ⟨h1, h2, _⟩ := errOf_pdosStep_inv h
    subst h1
    exact ⟨h2, Or.inr (Or.inl ⟨_, _, rfl⟩)⟩
  · obtain ⟨h1, h2, _⟩ := errOf_cableStep_inv h
    subst h1
    exact ⟨h2, Or.inr (Or.inr (Or.inl rfl))⟩
  · obtain ⟨h1, h2, _⟩ := errOf_altModesStep_inv h
    subst h1
    exact ⟨h2, Or.inr (Or.inr (Or.inr (Or.inl ⟨_, rfl⟩)))⟩
  · obtain ⟨h1, h2, _⟩ := errOf_altModesStep_inv h
    subst h1
    exact ⟨h2, Or.inr (Or.inr (Or.inr (Or.inl ⟨_, rfl⟩)))⟩
  · obtain ⟨h1, h2, _⟩ := errOf_pdMessageStep_inv h
    subst h1
    exact ⟨h2, Or.inr (Or.inr (Or.inr (Or.inr ⟨_, rfl⟩)))⟩
  · obtain ⟨h1, h2, _⟩ := errOf_altModesStep_inv h
    subst h1
    exact ⟨h2, Or.inr (Or.inr (Or.inr (Or.inl ⟨_, rfl⟩)))⟩
  · obtain ⟨h1, h2, _⟩ := errOf_pdMessageStep_inv h
    subst h1
    exact ⟨h2, Or.inr (Or.inr (Or.inr (Or.inr ⟨_, rfl⟩)))⟩
  · obtain ⟨h1, h2, _⟩ := errOf_pdosStep_inv h
    subst h1
    exact ⟨h2, Or.inr (Or.inl ⟨_, _, rfl⟩)⟩
  · obtain ⟨h1, h2, _⟩ := errOf_pdosStep_inv h
    subst h1
    exact ⟨h2, Or.inr (Or.inl ⟨_, _, rfl⟩)⟩

theorem loop_errOf_ne_zero {env : Env} {n : Nat} {r : Int}
    (h : errOf (loopConnectors env n) = some r) : r ≠ 0 := by
  obtain ⟨conn, _, s, hs, h'⟩ := errOf_loop_inv h
  exact (connSteps_errOf_inv hs h').1

/-! ### Top-level run characterizations -/

theorem run_new_null {env : Env} {b : Nat} (h : env.new_null = true) :
    c_example_lstypec env b =
      (env.new_ret,
       [Event.callNew (backend_type b) env.new_ret,
        Event.reportError "Failed to create TypecRs instance"]) := by
  simp [c_example_lstypec, h]

theorem run_caps_err {env : Env} {b : Nat} (h0 : env.new_null = false)
    (h1 : env.caps_ret ≠ 0) :
    c_example_lstypec env b =
      (env.caps_ret,
       [Event.callNew (backend_type b) env.new_ret,
        Event.callGetCapabilities env.caps_ret,
        Event.reportError "Failed to get capabilities"]) := by
  simp [c_example_lstypec, h0, h1]

theorem run_loop_error {env : Env} {b : Nat} {r : Int} {evs : List Event}
    (h0 : env.new_null = false) (h1 : env.caps_ret = 0)
    (h2 : loopConnectors env env.caps.num_connectors = .error (r, evs)) :
    c_example_lstypec env b =
      (r, Event.callNew (backend_type b) env.new_ret ::
        Event.callGetCapabilities env.caps_ret :: evs) := by
  simp [c_example_lstypec, h0, h1, h2]

theorem run_loop_ok {env : Env} {b : Nat} {evs : List Event}
    (h0 : env.new_null = false) (h1 : env.caps_ret = 0)
    (h2 : loopConnectors env env.caps.num_connectors = .ok evs) :
    c_example_lstypec env b =
      (0, Event.callNew (backend_type b) env.new_ret ::
        Event.callGetCapabilities env.caps_ret :: (evs ++ [Event.destroyInstance])) := by
  simp [c_example_lstypec, h0, h1, h2]

theorem result_zero_loop_ok {env : Env} {b : Nat} (h0 : env.new_null = false)
    (h1 : env.caps_ret = 0) (hres : (c_example_lstypec env b).1 = 0) :
    ∃ evs, loopConnectors env env.caps.num_connectors = .ok evs := by
  cases hl : loopConnectors env env.caps.num_connectors with
  | error x =>
    obtain ⟨r, evs⟩ := x
    rw [run_loop_error h0 h1 hl] at hres
    exact absurd hres (loop_errOf_ne_zero (by rw [hl]; rfl))
  | ok evs => exact ⟨evs, rfl⟩

/-! ### Destroyed triples match stored triples, segment by segment -/

theorem filterMap_none_fun {α β : Type} (l : List α) :
    l.filterMap (fun _ => (none : Option β)) = [] := by
  induction l with
  | nil => rfl
  | cons a l ih => simp [List.filterMap_cons, ih]

/-- Every triple handed to a destroyer is the triple stored by the matching
successful variable-length call, in order. -/
def TriplesOk (env : Env) (l : List Event) : Prop :=
  destroyedPdosTriples l = storedPdosTriples env l ∧
  destroyedAltTriples l = storedAltTriples env l

theorem triplesOk_append {env : Env} {l1 l2 : List Event}
    (h1 : TriplesOk env l1) (h2 : TriplesOk env l2) : TriplesOk env (l1 ++ l2) := by
  constructor
  · rw [destroyedPdosTriples_append, storedPdosTriples_append, h1.1, h2.1]
  · rw [destroyedAltTriples_append, storedAltTriples_append, h1.2, h2.2]

theorem triplesOk_seqSteps {env : Env} {a b : StepResult}
    (ha : TriplesOk env (evsOf a)) (hb : TriplesOk env (evsOf b)) :
    TriplesOk env (evsOf (seqSteps a b)) := by
  cases a with
  | error x => obtain ⟨r, evs⟩ := x; exact ha
  | ok evs =>
    cases b with
    | error y => obtain ⟨r, evs2⟩ := y; exact triplesOk_append ha hb
    | ok evs2 => exact triplesOk_append ha hb

theorem triplesOk_runSeq {env : Env} {steps : List StepResult}
    (h : ∀ s ∈ steps, TriplesOk env (evsOf s)) : TriplesOk env (evsOf (runSeq steps)) := by
  induction steps with
  | nil => exact ⟨rfl, rfl⟩
  | cons s rest ih =>
    exact triplesOk_seqSteps (h s (List.mem_cons_self _ _))
      (ih fun s' hs' => h s' (List.mem_cons_of_mem _ hs'))

theorem connCapsStep_triples (env : Env) (conn : Nat) :
    TriplesOk env (evsOf (connCapsStep env conn)) := by
  by_cases h : env.conn_caps_ret conn = 0
  · rw [evsOf_connCapsStep_ok h]
    exact ⟨rfl, rfl⟩
  · rw [evsOf_connCapsStep_err h]
    exact ⟨rfl, rfl⟩

theorem pdosStep_triples (env : Env) (conn : Nat) (partner : Bool) (ty : PdoType)
    (msg : String) : TriplesOk env (evsOf (pdosStep env conn partner ty msg)) := by
  by_cases h0 : env.pdos_ret conn partner ty = 0
  · rw [evsOf_pdosStep_ok msg h0]
    constructor
    · simp [destroyedPdosTriples, storedPdosTriples, h0, List.filterMap_cons,
        List.filterMap_append, List.filterMap_map, Function.comp_def, filterMap_none_fun]
    · simp [destroyedAltTriples, storedAltTriples, List.filterMap_cons,
        List.filterMap_append, List.filterMap_map, Function.comp_def, filterMap_none_fun]
  · by_cases h1 : env.pdos_ret conn partner ty = -ENOTSUP
    · rw [evsOf_pdosStep_notsup msg h1]
      constructor
      · simp [destroyedPdosTriples, storedPdosTriples, h0, List.filterMap_cons]
      · exact rfl
    · rw [evsOf_pdosStep_err msg h0 h1]
      constructor
      · simp [destroyedPdosTriples, storedPdosTriples, h0, List.filterMap_cons]
      · exact rfl

theorem cableStep_triples (env : Env) (conn : Nat) :
    TriplesOk env (evsOf (cableStep env conn)) := by
  by_cases h0 : env.cable_ret conn = 0
  · rw [evsOf_cableStep_nonfatal (Or.inl h0)]
    exact ⟨rfl, rfl⟩
  · by_cases h1 : env.cable_ret conn = -ENOTSUP
    · rw [evsOf_cableStep_nonfatal (Or.inr h1)]
      exact ⟨rfl, rfl⟩
    · rw [evsOf_cableStep_err h0 h1]
      exact ⟨rfl, rfl⟩

theorem altModesStep_triples (env : Env) (rc : GetAlternateModesRecipient) (conn : Nat)
    (msg : String) : TriplesOk env (evsOf (altModesStep env rc conn msg)) := by
  by_cases h0 : env.alt_ret rc conn = 0
  · rw [evsOf_altModesStep_ok msg h0]
    constructor
    · simp [destroyedPdosTriples, storedPdosTriples, List.filterMap_cons,
        List.filterMap_append, List.filterMap_map, Function.comp_def, filterMap_none_fun]
    · simp [destroyedAltTriples, storedAltTriples, h0, List.filterMap_cons,
        List.filterMap_append, List.filterMap_map, Function.comp_def, filterMap_none_fun]
  · by_cases h1 : env.alt_ret rc conn = -ENOTSUP
    · rw [evsOf_altModesStep_notsup msg h1]
      constructor
      · exact rfl
      · simp [destroyedAltTriples, storedAltTriples, h0, List.filterMap_cons]
    · rw [evsOf_altModesStep_err msg h0 h1]
      constructor
      · exact rfl
      · simp [destroyedAltTriples, storedAltTriples, h0, List.filterMap_cons]

theorem pdMessageStep_triples (env : Env) (conn : Nat) (rc : PdMessageRecipient)
    (msg : String) : TriplesOk env (evsOf (pdMessageStep env conn rc msg)) := by
  by_cases h0 : env.pd_msg_ret rc conn = 0
  · rw [evsOf_pdMessageStep_nonfatal msg (Or.inl h0)]
    exact ⟨rfl, rfl⟩
  · by_cases h1 : env.pd_msg_ret rc conn = -ENOTSUP
    · rw [evsOf_pdMessageStep_nonfatal msg (Or.inr h1)]
      exact ⟨rfl, rfl⟩
    · rw [evsOf_pdMessageStep_err msg h0 h1]
      exact ⟨rfl, rfl⟩

theorem connSteps_triples (env : Env) (conn : Nat) :
    ∀ s ∈ connSteps env conn, TriplesOk env (evsOf s) := by
  intro s hs
  simp only [connSteps, List.mem_cons, List.not_mem_nil, or_false] at hs
  rcases hs with rfl | rfl | rfl | rfl | rfl | rfl | rfl | rfl | rfl | rfl | rfl
  · exact connCapsStep_triples env conn
  · exact pdosStep_triples env conn false PdoType.Source _
  · exact pdosStep_triples env conn false PdoType.Sink _
  · exact cableStep_triples env conn
  · exact altModesStep_triples env GetAlternateModesRecipient.Connector conn _
  · exact altModesStep_triples env GetAlternateModesRecipient.SopPrime conn _
  · exact pdMessageStep_triples env conn PdMessageRecipient.SopPrime _
  · exact altModesStep_triples env GetAlternateModesRecipient.Sop conn _
  · exact pdMessageStep_triples env conn PdMessageRecipient.Sop _
  · exact pdosStep_triples env conn true PdoType.Source _
  · exact pdosStep_triples env conn true PdoType.Sink _

theorem triplesOk_loop (env : Env) (n : Nat) :
    TriplesOk env (evsOf (loopConnectors env n)) := by
  induction n with
  | zero => exact ⟨rfl, rfl⟩
  | succ n ih =>
    exact triplesOk_seqSteps ih (triplesOk_runSeq (connSteps_triples env n))

/-! ### Shape of the events the connector loop can emit -/

/-- Exhaustive description of any single event the connector loop emits:
which call produced it and, for assertion / access / destroy events, the
success of the producing call and the bounds of the access. -/
abbrev LoopEventShape (env : Env) (e : Event) : Prop :=
  (∃ conn, e = Event.callConnCaps conn (env.conn_caps_ret conn)) ∨
  (∃ conn p ty, e = Event.callGetPdos conn p 0 0 ty
      PdoSourceCapabilitiesType.CurrentSupportedSourceCapabilities env.caps.pd_version
      (env.pdos_ret conn p ty)) ∨
  (∃ conn p ty, env.pdos_ret conn p ty = 0 ∧
      e = Event.assertPdos (env.pdos_out conn p ty).ptr) ∨
  (∃ conn p ty i, env.pdos_ret conn p ty = 0 ∧ i < (env.pdos_out conn p ty).len ∧
      e = Event.accessElem (env.pdos_out conn p ty) i) ∨
  (∃ conn p ty, env.pdos_ret conn p ty = 0 ∧
      e = Event.destroyPdos (env.pdos_out conn p ty)) ∨
  (∃ conn, e = Event.callCableProps conn (env.cable_ret conn)) ∨
  (∃ rc conn, e = Event.callAltModes rc conn (env.alt_ret rc conn)) ∨
  (∃ rc conn i, env.alt_ret rc conn = 0 ∧ i < (env.alt_out rc conn).len ∧
      e = Event.accessElem (env.alt_out rc conn) i) ∨
  (∃ rc conn, env.alt_ret rc conn = 0 ∧ e = Event.destroyAltModes (env.alt_out rc conn)) ∨
  (∃ rc conn, e = Event.callPdMessage rc conn PdMessageResponseType.DiscoverIdentity
      (env.pd_msg_ret rc conn)) ∨
  (∃ m, e = Event.reportError m)

theorem connCapsStep_shape {env : Env} {conn : Nat} {e : Event}
    (he : e ∈ evsOf (connCapsStep env conn)) : LoopEventShape env e := by
  by_cases h : env.conn_caps_ret conn = 0
  · rw [evsOf_connCapsStep_ok h] at he
    simp only [List.mem_singleton] at he
    exact Or.inl ⟨conn, he⟩
  · rw [evsOf_connCapsStep_err h] at he
    simp only [List.mem_cons, List.not_mem_nil, or_false] at he
    rcases he with rfl | rfl
    · exact Or.inl ⟨conn, rfl⟩
    · exact Or.inr (Or.inr (Or.inr (Or.inr (Or.inr (Or.inr (Or.inr (Or.inr (Or.inr
        (Or.inr ⟨_, rfl⟩)))))))))

theorem pdosStep_shape {env : Env} {conn : Nat} {p : Bool} {ty : PdoType} {msg : String}
    {e : Event} (he : e ∈ evsOf (pdosStep env conn p ty msg)) : LoopEventShape env e := by
  by_cases h0 : env.pdos_ret conn p ty = 0
  · rw [evsOf_pdosStep_ok msg h0] at he
    simp only [List.mem_cons, List.mem_append, List.mem_map, List.mem_range,
      List.not_mem_nil, or_false] at he
    rcases he with rfl | rfl | ⟨i, hi, rfl⟩ | rfl
    · exact Or.inr (Or.inl ⟨conn, p, ty, rfl⟩)
    · exact Or.inr (Or.inr (Or.inl ⟨conn, p, ty, h0, rfl⟩))
    · exact Or.inr (Or.inr (Or.inr (Or.inl ⟨conn, p, ty, i, h0, hi, rfl⟩)))
    · exact Or.inr (Or.inr (Or.inr (Or.inr (Or.inl ⟨conn, p, ty, h0, rfl⟩))))
  · by_cases h1 : env.pdos_ret conn p ty = -ENOTSUP
    · rw [evsOf_pdosStep_notsup msg h1] at he
      simp only [List.mem_singleton] at he
      subst he
      exact Or.inr (Or.inl ⟨conn, p, ty, rfl⟩)
    · rw [evsOf_pdosStep_err msg h0 h1] at he
      simp only [List.mem_cons, List.not_mem_nil, or_false] at he
      rcases he with rfl | rfl
      · exact Or.inr (Or.inl ⟨conn, p, ty, rfl⟩)
      · exact Or.inr (Or.inr (Or.inr (Or.inr (Or.inr (Or.inr (Or.inr (Or.inr (Or.inr
          (Or.inr ⟨_, rfl⟩)))))))))

theorem cableStep_shape {env : Env} {conn : Nat} {e : Event}
    (he : e ∈ evsOf (cableStep env conn)) : LoopEventShape env e := by
  by_cases h0 : env.cable_ret conn = 0
  · rw [evsOf_cableStep_nonfatal (Or.inl h0)] at he
    simp only [List.mem_singleton] at he
    exact Or.inr (Or.inr (Or.inr (Or.inr (Or.inr (Or.inl ⟨conn, he⟩)))))
  · by_cases h1 : env.cable_ret conn = -ENOTSUP
    · rw [evsOf_cableStep_nonfatal (Or.inr h1)] at he
      simp only [List.mem_singleton] at he
      exact Or.inr (Or.inr (Or.inr (Or.inr (Or.inr (Or.inl ⟨conn, he⟩)))))
    · rw [evsOf_cableStep_err h0 h1] at he
      simp only [List.mem_cons, List.not_mem_nil, or_false] at he
      rcases he with rfl | rfl
      · exact Or.inr (Or.inr (Or.inr (Or.inr (Or.inr (Or.inl ⟨conn, rfl⟩)))))
      · exact Or.inr (Or.inr (Or.inr (Or.inr (Or.inr (Or.inr (Or.inr (Or.inr (Or.inr
          (Or.inr ⟨_, rfl⟩)))))))))

theorem altModesStep_shape {env : Env} {rc : GetAlternateModesRecipient} {conn : Nat}
    {msg : String} {e : Event} (he : e ∈ evsOf (altModesStep env rc conn msg)) :
    LoopEventShape env e := by
  by_cases h0 : env.alt_ret rc conn = 0
  · rw [evsOf_altModesStep_ok msg h0] at he
    simp only [List.mem_cons, List.mem_append, List.mem_map, List.mem_range,
      List.not_mem_nil, or_false] at he
    rcases he with rfl | ⟨i, hi, rfl⟩ | rfl
    · exact Or.inr (Or.inr (Or.inr (Or.inr (Or.inr (Or.inr (Or.inl ⟨rc, conn, rfl⟩))))))
    · exact Or.inr (Or.inr (Or.inr (Or.inr (Or.inr (Or.inr (Or.inr
        (Or.inl ⟨rc, conn, i, h0, hi, rfl⟩)))))))
    · exact Or.inr (Or.inr (Or.inr (Or.inr (Or.inr (Or.inr (Or.inr (Or.inr
        (Or.inl ⟨rc, conn, h0, rfl⟩))))))))
  · by_cases h1 : env.alt_ret rc conn = -ENOTSUP
    · rw [evsOf_altModesStep_notsup msg h1] at he
      simp only [List.mem_singleton] at he
      exact Or.inr (Or.inr (Or.inr (Or.inr (Or.inr (Or.inr (Or.inl ⟨rc, conn, he⟩))))))
    · rw [evsOf_altModesStep_err msg h0 h1] at he
      simp only [List.mem_cons, List.not_mem_nil, or_false] at he
      rcases he with rfl | rfl
      · exact Or.inr (Or.inr (Or.inr (Or.inr (Or.inr (Or.inr (Or.inl ⟨rc, conn, rfl⟩))))))
      · exact Or.inr (Or.inr (Or.inr (Or.inr (Or.inr (Or.inr (Or.inr (Or.inr (Or.inr
          (Or.inr ⟨_, rfl⟩)))))))))

theorem pdMessageStep_shape {env : Env} {conn : Nat} {rc : PdMessageRecipient}
    {msg : String} {e : Event} (he : e ∈ evsOf (pdMessageStep env conn rc msg)) :
    LoopEventShape env e := by
  by_cases h0 : env.pd_msg_ret rc conn = 0
  · rw [evsOf_pdMessageStep_nonfatal msg (Or.inl h0)] at he
    simp only [List.mem_singleton] at he
    exact Or.inr (Or.inr (Or.inr (Or.inr (Or.inr (Or.inr (Or.inr (Or.inr (Or.inr
      (Or.inl ⟨rc, conn, he⟩)))))))))
  · by_cases h1 : env.pd_msg_ret rc conn = -ENOTSUP
    · rw [evsOf_pdMessageStep_nonfatal msg (Or.inr h1)] at he
      simp only [List.mem_singleton] at he
      exact Or.inr (Or.inr (Or.inr (Or.inr (Or.inr (Or.inr (Or.inr (Or.inr (Or.inr
        (Or.inl ⟨rc, conn, he⟩)))))))))
    · rw [evsOf_pdMessageStep_err msg h0 h1] at he
      simp only [List.mem_cons, List.not_mem_nil, or_false] at he
      rcases he with rfl | rfl
      · exact Or.inr (Or.inr (Or.inr (Or.inr (Or.inr (Or.inr (Or.inr (Or.inr (Or.inr
          (Or.inl ⟨rc, conn, rfl⟩)))))))))
      · exact Or.inr (Or.inr (Or.inr (Or.inr (Or.inr (Or.inr (Or.inr (Or.inr (Or.inr
          (Or.inr ⟨_, rfl⟩)))))))))

theorem loop_event_shape {env : Env} {n : Nat} {e : Event}
    (he : e ∈ evsOf (loopConnectors env n)) : LoopEventShape env e := by
  obtain ⟨conn, _, s, hs, he'⟩ := mem_evsOf_loop he
  simp only [connSteps, List.mem_cons, List.not_mem_nil, or_false] at hs
  rcases hs with rfl | rfl | rfl | rfl | rfl | rfl | rfl | rfl | rfl | rfl | rfl
  · exact connCapsStep_shape he'
  · exact pdosStep_shape he'
  · exact pdosStep_shape he'
  · exact cableStep_shape he'
  · exact altModesStep_shape he'
  · exact altModesStep_shape he'
  · exact pdMessageStep_shape he'
  · exact altModesStep_shape he'
  · exact pdMessageStep_shape he'
  · exact pdosStep_shape he'
  · exact pdosStep_shape he'

/-! ### Runs in which no call fails fatally -/

/-- For connector `conn`: `get_conn_capabilities` succeeds, and every optional
per-connector call either succeeds or reports `-ENOTSUP`. -/
def NonfatalConn (env : Env) (conn : Nat) : Prop :=
  env.conn_caps_ret conn = 0 ∧
  (∀ p ty, env.pdos_ret conn p ty = 0 ∨ env.pdos_ret conn p ty = -ENOTSUP) ∧
  (env.cable_ret conn = 0 ∨ env.cable_ret conn = -ENOTSUP) ∧
  (∀ rc, env.alt_ret rc conn = 0 ∨ env.alt_ret rc conn = -ENOTSUP) ∧
  (∀ rc, env.pd_msg_ret rc conn = 0 ∨ env.pd_msg_ret rc conn = -ENOTSUP)

theorem errOf_pdosStep_nonfatal {env : Env} {conn : Nat} {p : Bool} {ty : PdoType}
    (msg : String) (h : env.pdos_ret conn p ty = 0 ∨ env.pdos_ret conn p ty = -ENOTSUP) :
    errOf (pdosStep env conn p ty msg) = none := by
  rcases h with h | h
  · exact errOf_pdosStep_ok msg h
  · exact errOf_pdosStep_notsup msg h

theorem errOf_altModesStep_nonfatal {env : Env} {rc : GetAlternateModesRecipient}
    {conn : Nat} (msg : String)
    (h : env.alt_ret rc conn = 0 ∨ env.alt_ret rc conn = -ENOTSUP) :
    errOf (altModesStep env rc conn msg) = none := by
  rcases h with h | h
  · exact errOf_altModesStep_ok msg h
  · exact errOf_altModesStep_notsup msg h

theorem connSteps_errOf_none {env : Env} {conn : Nat} (h : NonfatalConn env conn) :
    ∀ s ∈ connSteps env conn, errOf s = none := by
  obtain ⟨hcc, hp, hcb, hal, hpm⟩ := h
  intro s hs
  simp only [connSteps, List.mem_cons, List.not_mem_nil, or_false] at hs
  rcases hs with rfl | rfl | rfl | rfl | rfl | rfl | rfl | rfl | rfl | rfl | rfl
  · exact errOf_connCapsStep_ok hcc
  · exact errOf_pdosStep_nonfatal _ (hp false PdoType.Source)
  · exact errOf_pdosStep_nonfatal _ (hp false PdoType.Sink)
  · exact errOf_cableStep_nonfatal hcb
  · exact errOf_altModesStep_nonfatal _ (hal GetAlternateModesRecipient.Connector)
  · exact errOf_altModesStep_nonfatal _ (hal GetAlternateModesRecipient.SopPrime)
  · exact errOf_pdMessageStep_nonfatal _ (hpm PdMessageRecipient.SopPrime)
  · exact errOf_altModesStep_nonfatal _ (hal GetAlternateModesRecipient.Sop)
  · exact errOf_pdMessageStep_nonfatal _ (hpm PdMessageRecipient.Sop)
  · exact errOf_pdosStep_nonfatal _ (hp true PdoType.Source)
  · exact errOf_pdosStep_nonfatal _ (hp true PdoType.Sink)

theorem loop_ok_of_nonfatal {env : Env} {n : Nat}
    (h : ∀ conn, conn < n → NonfatalConn env conn) :
    ∃ evs, loopConnectors env n = .ok evs :=
  (errOf_eq_none_iff _).mp (errOf_loop_none fun c hc => connSteps_errOf_none (h c hc))

theorem mem_expectedPdosSites {conn n : Nat} {p : Bool} {ty : PdoType} (h : conn < n) :
    (conn, p, ty) ∈ expectedPdosSites n := by
  induction n with
  | zero => exact absurd h (Nat.not_lt_zero conn)
  | succ n ih =>
    simp only [expectedPdosSites, List.mem_append]
    rcases Nat.lt_succ_iff_lt_or_eq.mp h with h' | rfl
    · exact Or.inl (ih h')
    · right
      cases p <;> cases ty <;> simp

/-! ### Concrete oracle environments -/

/-- Every call succeeds; two connectors; PD version 768 (3.0.0 in BCD). -/
def envAllOk : Env :=
  ⟨0, false, 0, ⟨2, 768⟩, fun _ => 0, fun _ _ _ => 0, fun _ _ _ => ⟨1, 2, 3⟩,
   fun _ => 0, fun _ _ => 0, fun _ _ => ⟨4, 1, 5⟩, fun _ _ => 0⟩

/-- Like `envAllOk` but every partner `get_pdos` call reports `-ENOTSUP`
(no partner attached). -/
def envPartnerNS : Env :=
  ⟨0, false, 0, ⟨2, 768⟩, fun _ => 0,
   fun _ partner _ => if partner then -ENOTSUP else 0,
   fun _ _ _ => ⟨1, 2, 3⟩, fun _ => 0, fun _ _ => 0, fun _ _ => ⟨4, 1, 5⟩, fun _ _ => 0⟩

/-- One connector whose `get_conn_capabilities` reports `-ENOTSUP`; every
other call succeeds. -/
def envConnCapsNS : Env :=
  ⟨0, false, 0, ⟨1, 768⟩, fun _ => -ENOTSUP, fun _ _ _ => 0, fun _ _ _ => ⟨1, 2, 3⟩,
   fun _ => 0, fun _ _ => 0, fun _ _ => ⟨4, 1, 5⟩, fun _ _ => 0⟩

/-- `get_capabilities` fails with a generic error (`-5`, `-EIO`). -/
def envCapsFail : Env :=
  ⟨0, false, -5, ⟨1, 768⟩, fun _ => 0, fun _ _ _ => 0, fun _ _ _ => ⟨1, 2, 3⟩,
   fun _ => 0, fun _ _ => 0, fun _ _ => ⟨4, 1, 5⟩, fun _ _ => 0⟩

/-- Instance creation fails: NULL handle stored, `-12` (`-ENOMEM`) returned. -/
def envNewFail : Env :=
  ⟨-12, true, 0, ⟨1, 768⟩, fun _ => 0, fun _ _ _ => 0, fun _ _ _ => ⟨1, 2, 3⟩,
   fun _ => 0, fun _ _ => 0, fun _ _ => ⟨4, 1, 5⟩, fun _ _ => 0⟩

/-- Every event of a trace is one of the four top-level events or an event of
the connector loop. -/
theorem trace_event_cases {env : Env} {b : Nat} {e : Event}
    (he : e ∈ (c_example_lstypec env b).2) :
    e = Event.callNew (backend_type b) env.new_ret ∨
    e = Event.callGetCapabilities env.caps_ret ∨
    (∃ m, e = Event.reportError m) ∨
    e = Event.destroyInstance ∨
    e ∈ evsOf (loopConnectors env env.caps.num_connectors) := by
  by_cases hnull : env.new_null = true
  · rw [run_new_null hnull] at he
    have he' : e ∈ [Event.callNew (backend_type b) env.new_ret,
        Event.reportError "Failed to create TypecRs instance"] := he
    simp only [List.mem_cons, List.not_mem_nil, or_false] at he'
    rcases he' with rfl | rfl
    · exact Or.inl rfl
    · exact Or.inr (Or.inr (Or.inl ⟨_, rfl⟩))
  · have h0 : env.new_null = false := by simpa using hnull
    by_cases h1 : env.caps_ret = 0
    · cases hl : loopConnectors env env.caps.num_connectors with
      | error x =>
        obtain ⟨r, evs⟩ := x
        rw [run_loop_error h0 h1 hl] at he
        have he' : e ∈ Event.callNew (backend_type b) env.new_ret ::
            Event.callGetCapabilities env.caps_ret :: evs := he
        simp only [List.mem_cons] at he'
        rcases he' with rfl | rfl | hm
        · exact Or.inl rfl
        · exact Or.inr (Or.inl rfl)
        · exact Or.inr (Or.inr (Or.inr (Or.inr hm)))
      | ok evs =>
        rw [run_loop_ok h0 h1 hl] at he
        have he' : e ∈ Event.callNew (backend_type b) env.new_ret ::
            Event.callGetCapabilities env.caps_ret ::
            (evs ++ [Event.destroyInstance]) := he
        simp only [List.mem_cons, List.mem_append, List.not_mem_nil, or_false] at he'
        rcases he' with rfl | rfl | hm | rfl
        · exact Or.inl rfl
        · exact Or.inr (Or.inl rfl)
        · exact Or.inr (Or.inr (Or.inr (Or.inr hm)))
        · exact Or.inr (Or.inr (Or.inr (Or.inl rfl)))
    · rw [run_caps_err h0 h1] at he
      have he' : e ∈ [Event.callNew (backend_type b) env.new_ret,
          Event.callGetCapabilities env.caps_ret,
          Event.reportError "Failed to get capabilities"] := he
      simp only [List.mem_cons, List.not_mem_nil, or_false] at he'
      rcases he' with rfl | rfl | rfl
      · exact Or.inl rfl
      · exact Or.inr (Or.inl rfl)
      · exact Or.inr (Or.inr (Or.inl ⟨_, rfl⟩))

/-- The connector loop never emits the instance-destruction event; it is
appended after the loop, only on the success path. -/
theorem destroyInstance_not_in_loop (env : Env) (n : Nat) :
    Event.destroyInstance ∉ evsOf (loopConnectors env n) := by
  intro hm
  rcases loop_event_shape hm with ⟨c, h⟩ | ⟨c, p, ty, h⟩ | ⟨c, p, ty, _, h⟩ |
    ⟨c, p, ty, i, _, _, h⟩ | ⟨c, p, ty, _, h⟩ | ⟨c, h⟩ | ⟨rc, c, h⟩ |
    ⟨rc, c, i, _, _, h⟩ | ⟨rc, c, _, h⟩ | ⟨rc, c, h⟩ | ⟨m, h⟩ <;> simp at h

/-! ### The failing call determines the error exit -/

/-- The return code carried by a call event, if the event is a call. -/
def eventRet : Event → Option Int
  | .callNew _ r => some r
  | .callGetCapabilities r => some r
  | .callConnCaps _ r => some r
  | .callGetPdos _ _ _ _ _ _ _ r => some r
  | .callCableProps _ r => some r
  | .callAltModes _ _ r => some r
  | .callPdMessage _ _ _ r => some r
  | _ => none

theorem seqSteps_error_inv {a b : StepResult} {r : Int} {evs : List Event}
    (h : seqSteps a b = .error (r, evs)) :
    a = .error (r, evs) ∨ ∃ e1 e2, a = .ok e1 ∧ b = .error (r, e2) ∧ evs = e1 ++ e2 := by
  cases a with
  | error x =>
    obtain ⟨r', evs'⟩ := x
    simp only [seqSteps] at h
    exact Or.inl h
  | ok e1 =>
    cases b with
    | error y =>
      obtain ⟨r', e2⟩ := y
      simp only [seqSteps, Except.error.injEq, Prod.mk.injEq] at h
      obtain ⟨rfl, rfl⟩ := h
      exact Or.inr ⟨e1, e2, rfl, rfl, rfl⟩
    | ok e2 =>
      simp [seqSteps] at h

theorem connCapsStep_error_shape {env : Env} {conn : Nat} {r : Int} {evs : List Event}
    (h : connCapsStep env conn = .error (r, evs)) :
    ∃ e m, evs = [e, Event.reportError m] ∧ eventRet e = some r := by
  simp only [connCapsStep] at h
  split at h
  · simp at h
  · simp only [Except.error.injEq, Prod.mk.injEq] at h
    obtain ⟨rfl, rfl⟩ := h
    exact ⟨_, _, rfl, rfl⟩

theorem pdosStep_error_shape {env : Env} {conn : Nat} {partner : Bool} {ty : PdoType}
    {msg : String} {r : Int} {evs : List Event}
    (h : pdosStep env conn partner ty msg = .error (r, evs)) :
    ∃ e m, evs = [e, Event.reportError m] ∧ eventRet e = some r := by
  simp only [pdosStep] at h
  split at h
  · simp at h
  · split at h
    · simp at h
    · simp only [Except.error.injEq, Prod.mk.injEq] at h
      obtain ⟨rfl, rfl⟩ := h
      exact ⟨_, _, rfl, rfl⟩

theorem cableStep_error_shape {env : Env} {conn : Nat} {r : Int} {evs : List Event}
    (h : cableStep env conn = .error (r, evs)) :
    ∃ e m, evs = [e, Event.reportError m] ∧ eventRet e = some r := by
  simp only [cableStep] at h
  split at h
  · simp at h
  · split at h
    · simp at h
    · simp only [Except.error.injEq, Prod.mk.injEq] at h
      obtain ⟨rfl, rfl⟩ := h
      exact ⟨_, _, rfl, rfl⟩

theorem altModesStep_error_shape {env : Env} {rc : GetAlternateModesRecipient}
    {conn : Nat} {msg : String} {r : Int} {evs : List Event}
    (h : altModesStep env rc conn msg = .error (r, evs)) :
    ∃ e m, evs = [e, Event.reportError m] ∧ eventRet e = some r := by
  simp only [altModesStep] at h
  split at h
  · simp at h
  · split at h
    · simp at h
    · simp only [Except.error.injEq, Prod.mk.injEq] at h
      obtain ⟨rfl, rfl⟩ := h
      exact ⟨_, _, rfl, rfl⟩

theorem pdMessageStep_error_shape {env : Env} {conn : Nat} {rc : PdMessageRecipient}
    {msg : String} {r : Int} {evs : List Event}
    (h : pdMessageStep env conn rc msg = .error (r, evs)) :
    ∃ e m, evs = [e, Event.reportError m] ∧ eventRet e = some r := by
  simp only [pdMessageStep] at h
  split at h
  · simp at h
  · split at h
    · simp at h
    · simp only [Except.error.injEq, Prod.mk.injEq] at h
      obtain ⟨rfl, rfl⟩ := h
      exact ⟨_, _, rfl, rfl⟩

theorem connSteps_error_shape {env : Env} {conn : Nat} :
    ∀ s ∈ connSteps env conn, ∀ r evs, s = .error (r, evs) →
      ∃ e m, evs = [e, Event.reportError m] ∧ eventRet e = some r := by
  intro s hs r evs h
  simp only [connSteps, List.mem_cons, List.not_mem_nil, or_false] at hs
  rcases hs with rfl | rfl | rfl | rfl | rfl | rfl | rfl | rfl | rfl | rfl | rfl
  · exact connCapsStep_error_shape h
  · exact pdosStep_error_shape h
  · exact pdosStep_error_shape h
  · exact cableStep_error_shape h
  · exact altModesStep_error_shape h
  · exact altModesStep_error_shape h
  · exact pdMessageStep_error_shape h
  · exact altModesStep_error_shape h
  · exact pdMessageStep_error_shape h
  · exact pdosStep_error_shape h
  · exact pdosStep_error_shape h

theorem runSeq_error_shape {steps : List StepResult} {r : Int} {evs : List Event}
    (hstep : ∀ s ∈ steps, ∀ r' evs', s = .error (r', evs') →
      ∃ e m, evs' = [e, Event.reportError m] ∧ eventRet e = some r')
    (h : runSeq steps = .error (r, evs)) :
    ∃ pre e m, evs = pre ++ [e, Event.reportError m] ∧ eventRet e = some r := by
  induction steps generalizing evs with
  | nil => simp [runSeq] at h
  | cons s rest ih =>
    rw [runSeq] at h
    rcases seqSteps_error_inv h with h' | ⟨e1, e2, hok, herr, rfl⟩
    · obtain ⟨e, m, h1, h2⟩ := hstep s (List.mem_cons_self _ _) r evs h'
      exact ⟨[], e, m, by rw [h1]; rfl, h2⟩
    · obtain ⟨pre, e, m, h1, h2⟩ :=
        ih (fun s' hs' => hstep s' (List.mem_cons_of_mem _ hs')) herr
      exact ⟨e1 ++ pre, e, m, by rw [h1, List.append_assoc], h2⟩

/-- When the connector loop returns early, its events end with the failing
call followed by its error report, and the early-return code is exactly that
call's return code. -/
theorem loop_error_shape {env : Env} {n : Nat} {r : Int} {evs : List Event}
    (h : loopConnectors env n = .error (r, evs)) :
    ∃ pre e m, evs = pre ++ [e, Event.reportError m] ∧ eventRet e = some r := by
  induction n generalizing evs with
  | zero => simp [loopConnectors] at h
  | succ n ih =>
    rw [loopConnectors] at h
    rcases seqSteps_error_inv h with h' | ⟨e1, e2, hok, herr, rfl⟩
    · exact ih h'
    · obtain ⟨pre, e, m, h1, h2⟩ := runSeq_error_shape connSteps_error_shape herr
      exact ⟨e1 ++ pre, e, m, by rw [h1, List.append_assoc], h2⟩

/-! ### Claims -/

/-- C1 (counterexample): the claim admits `-ENOTSUP` from any per-connector
call, `libtypec_rs_get_conn_capabilities` included.  In `envConnCapsNS` the
connector-capability call of connector 0 returns `-ENOTSUP` and every other
per-connector call returns 0, yet the program's status is `-ENOTSUP`, not 0:
lines 50-54 of lstypec.c treat any nonzero return from
`libtypec_rs_get_conn_capabilities` as fatal. -/
theorem claim_C1_counterexample :
    envConnCapsNS.conn_caps_ret 0 = -ENOTSUP ∧
    (∀ conn p ty, envConnCapsNS.pdos_ret conn p ty = 0) ∧
    (∀ conn, envConnCapsNS.cable_ret conn = 0) ∧
    (∀ rc conn, envConnCapsNS.alt_ret rc conn = 0) ∧
    (∀ rc conn, envConnCapsNS.pd_msg_ret rc conn = 0) ∧
    (c_example_lstypec envConnCapsNS 1).1 = -ENOTSUP ∧ -ENOTSUP ≠ (0 : Int) :=
  ⟨rfl, fun _ _ _ => rfl, fun _ => rfl, fun _ _ => rfl, fun _ _ => rfl, rfl, by decide⟩

/-- C1 (amended): if instance creation and `libtypec_rs_get_capabilities` and
every `libtypec_rs_get_conn_capabilities` call succeed, and each of the other
per-connector calls (`get_pdos`, `get_cable_properties`,
`get_alternate_modes`, `get_pd_message`) returns 0 or `-ENOTSUP`, then the
program completes with status 0 and processes every connector: it queries the
connector capabilities of exactly the indices `0..num_connectors-1` in order
and visits all four `get_pdos` sites of every connector. -/
theorem claim_C1_amended_notsup_nonfatal (env : Env) (b : Nat)
    (h0 : env.new_null = false) (h1 : env.caps_ret = 0)
    (h : ∀ conn, conn < env.caps.num_connectors → NonfatalConn env conn) :
    (c_example_lstypec env b).1 = 0 ∧
    connCapsIndices (c_example_lstypec env b).2 = List.range env.caps.num_connectors ∧
    pdosCallSites (c_example_lstypec env b).2 = expectedPdosSites env.caps.num_connectors := by
  obtain ⟨evs, hl⟩ := loop_ok_of_nonfatal h
  obtain ⟨hc, hp⟩ := loop_ok_queries hl
  have htr := run_loop_ok (b := b) h0 h1 hl
  refine ⟨by rw [htr], ?_, ?_⟩
  · rw [htr]
    simp only [connCapsIndices] at hc ⊢
    simp [List.filterMap_cons, List.filterMap_append, hc]
  · rw [htr]
    simp only [pdosCallSites] at hp ⊢
    simp [List.filterMap_cons, List.filterMap_append, hp]

/-- C1 (witness): in `envPartnerNS` (both partner `get_pdos` calls of each of
the two connectors report `-ENOTSUP`, all other calls succeed) the program
returns 0 and processes both connectors. -/
theorem claim_C1_witness :
    (c_example_lstypec envPartnerNS 1).1 = 0 ∧
    connCapsIndices (c_example_lstypec envPartnerNS 1).2 =
      List.range envPartnerNS.caps.num_connectors ∧
    pdosCallSites (c_example_lstypec envPartnerNS 1).2 =
      expectedPdosSites envPartnerNS.caps.num_connectors := by
  refine claim_C1_amended_notsup_nonfatal envPartnerNS 1 rfl rfl ?_
  intro conn _
  refine ⟨rfl, ?_, Or.inl rfl, fun _ => Or.inl rfl, fun _ => Or.inl rfl⟩
  intro p ty
  cases p
  · exact Or.inl rfl
  · exact Or.inr rfl

/-- C2: if, for each connector, both partner `get_pdos` calls return
`-ENOTSUP` while connector-capability calls succeed and the remaining
optional calls return 0 or `-ENOTSUP`, the program proceeds past the failing
calls: it still makes both partner `get_pdos` calls of every connector,
processes every connector, and exits with status 0. -/
theorem claim_C2_partner_notsup_nonfatal (env : Env) (b : Nat)
    (h0 : env.new_null = false) (h1 : env.caps_ret = 0)
    (hcc : ∀ conn, conn < env.caps.num_connectors → env.conn_caps_ret conn = 0)
    (hpartner : ∀ conn, conn < env.caps.num_connectors →
      ∀ ty, env.pdos_ret conn true ty = -ENOTSUP)
    (hlocal : ∀ conn, conn < env.caps.num_connectors →
      ∀ ty, env.pdos_ret conn false ty = 0 ∨ env.pdos_ret conn false ty = -ENOTSUP)
    (hcb : ∀ conn, conn < env.caps.num_connectors →
      env.cable_ret conn = 0 ∨ env.cable_ret conn = -ENOTSUP)
    (hal : ∀ conn, conn < env.caps.num_connectors →
      ∀ rc, env.alt_ret rc conn = 0 ∨ env.alt_ret rc conn = -ENOTSUP)
    (hpm : ∀ conn, conn < env.caps.num_connectors →
      ∀ rc, env.pd_msg_ret rc conn = 0 ∨ env.pd_msg_ret rc conn = -ENOTSUP) :
    (c_example_lstypec env b).1 = 0 ∧
    connCapsIndices (c_example_lstypec env b).2 = List.range env.caps.num_connectors ∧
    (∀ conn, conn < env.caps.num_connectors →
      (conn, true, PdoType.Source) ∈ pdosCallSites (c_example_lstypec env b).2 ∧
      (conn, true, PdoType.Sink) ∈ pdosCallSites (c_example_lstypec env b).2) := by
  have hnf : ∀ conn, conn < env.caps.num_connectors → NonfatalConn env conn := by
    intro conn hlt
    refine ⟨hcc conn hlt, ?_, hcb conn hlt, hal conn hlt, hpm conn hlt⟩
    intro p ty
    cases p
    · exact hlocal conn hlt ty
    · exact Or.inr (hpartner conn hlt ty)
  obtain ⟨evs, hl⟩ := loop_ok_of_nonfatal hnf
  obtain ⟨hc, hp⟩ := loop_ok_queries hl
  have htr := run_loop_ok (b := b) h0 h1 hl
  have hsites : pdosCallSites (c_example_lstypec env b).2 =
      expectedPdosSites env.caps.num_connectors := by
    rw [htr]
    simp only [pdosCallSites] at hp ⊢
    simp [List.filterMap_cons, List.filterMap_append, hp]
  refine ⟨by rw [htr], ?_, ?_⟩
  · rw [htr]
    simp only [connCapsIndices] at hc ⊢
    simp [List.filterMap_cons, List.filterMap_append, hc]
  · intro conn hlt
    rw [hsites]
    exact ⟨mem_expectedPdosSites hlt, mem_expectedPdosSites hlt⟩

/-- C2 (witness): in `envPartnerNS` the program exits 0, processes both
connectors, and still makes the partner `get_pdos` calls of connector 0. -/
theorem claim_C2_witness :
    (c_example_lstypec envPartnerNS 2).1 = 0 ∧
    connCapsIndices (c_example_lstypec envPartnerNS 2).2 =
      List.range envPartnerNS.caps.num_connectors ∧
    (∀ conn, conn < envPartnerNS.caps.num_connectors →
      (conn, true, PdoType.Source) ∈ pdosCallSites (c_example_lstypec envPartnerNS 2).2 ∧
      (conn, true, PdoType.Sink) ∈ pdosCallSites (c_example_lstypec envPartnerNS 2).2) := by
  refine claim_C2_partner_notsup_nonfatal envPartnerNS 2 rfl rfl
    (fun _ _ => rfl) (fun _ _ _ => rfl) (fun _ _ _ => Or.inl rfl)
    (fun _ _ => Or.inl rfl) (fun _ _ _ => Or.inl rfl) (fun _ _ _ => Or.inl rfl)

/-- C3: in every execution, the triples passed to `libtypec_rs_destroy_pdos`
are, in order, exactly the triples stored by the successful
`libtypec_rs_get_pdos` calls (so each successful call's triple is destroyed
exactly once, never a mixed triple, and no triple of a failed call is
destroyed), and likewise for `libtypec_rs_get_alternate_modes` and
`libtypec_rs_destroy_alternate_modes`. -/
theorem claim_C3_destroy_triples_match (env : Env) (b : Nat) :
    destroyedPdosTriples (c_example_lstypec env b).2 =
      storedPdosTriples env (c_example_lstypec env b).2 ∧
    destroyedAltTriples (c_example_lstypec env b).2 =
      storedAltTriples env (c_example_lstypec env b).2 := by
  have hloop := triplesOk_loop env env.caps.num_connectors
  by_cases hnull : env.new_null = true
  · rw [run_new_null hnull]
    exact ⟨rfl, rfl⟩
  · have h0 : env.new_null = false := by simpa using hnull
    by_cases h1 : env.caps_ret = 0
    · cases hl : loopConnectors env env.caps.num_connectors with
      | error x =>
        obtain ⟨r, evs⟩ := x
        rw [hl] at hloop
        have hT : TriplesOk env evs := hloop
        rw [run_loop_error h0 h1 hl]
        constructor
        · have hT1 := hT.1
          simp only [destroyedPdosTriples, storedPdosTriples] at hT1 ⊢
          simp [List.filterMap_cons, hT1]
        · have hT2 := hT.2
          simp only [destroyedAltTriples, storedAltTriples] at hT2 ⊢
          simp [List.filterMap_cons, hT2]
      | ok evs =>
        rw [hl] at hloop
        have hT : TriplesOk env evs := hloop
        rw [run_loop_ok h0 h1 hl]
        constructor
        · have hT1 := hT.1
          simp only [destroyedPdosTriples, storedPdosTriples] at hT1 ⊢
          simp [List.filterMap_cons, List.filterMap_append, hT1]
        · have hT2 := hT.2
          simp only [destroyedAltTriples, storedAltTriples] at hT2 ⊢
          simp [List.filterMap_cons, List.filterMap_append, hT2]
    · rw [run_caps_err h0 h1]
      exact ⟨rfl, rfl⟩

/-- C4: the instance is created with the platform default `OsBackends_Sysfs`
when the `backend` argument is 0, and with exactly the supplied value
otherwise: the first event of every run is the `libtypec_rs_new` call with
that backend. -/
theorem claim_C4_backend_selection (env : Env) (backend : Nat) :
    (c_example_lstypec env backend).2.head? =
      some (Event.callNew (if backend = 0 then OsBackends_Sysfs else backend)
        env.new_ret) := by
  have hbt : backend_type backend = if backend = 0 then OsBackends_Sysfs else backend := by
    by_cases h : backend = 0 <;> simp [backend_type, h]
  by_cases hnull : env.new_null = true
  · rw [run_new_null hnull, hbt]
    rfl
  · have h0 : env.new_null = false := by simpa using hnull
    by_cases h1 : env.caps_ret = 0
    · cases hl : loopConnectors env env.caps.num_connectors with
      | error x =>
        obtain ⟨r, evs⟩ := x
        rw [run_loop_error h0 h1 hl, hbt]
        rfl
      | ok evs =>
        rw [run_loop_ok h0 h1 hl, hbt]
        rfl
    · rw [run_caps_err h0 h1, hbt]
      rfl

/-- C5: whenever instance creation and `libtypec_rs_get_capabilities`
succeed and no fatal error occurs (the run returns 0), the program issues the
connector-capability query for exactly the indices `0..num_connectors-1`, in
increasing order, and for no other index. -/
theorem claim_C5_connector_enumeration (env : Env) (b : Nat)
    (h0 : env.new_null = false) (h1 : env.caps_ret = 0)
    (hres : (c_example_lstypec env b).1 = 0) :
    connCapsIndices (c_example_lstypec env b).2 =
      List.range env.caps.num_connectors ∧
    pdosCallSites (c_example_lstypec env b).2 =
      expectedPdosSites env.caps.num_connectors := by
  obtain ⟨evs, hl⟩ := result_zero_loop_ok h0 h1 hres
  obtain ⟨hc, hp⟩ := loop_ok_queries hl
  constructor
  · rw [run_loop_ok h0 h1 hl]
    simp only [connCapsIndices] at hc ⊢
    simp [List.filterMap_cons, List.filterMap_append, hc]
  · rw [run_loop_ok h0 h1 hl]
    simp only [pdosCallSites] at hp ⊢
    simp [List.filterMap_cons, List.filterMap_append, hp]

/-- C5 (witness): in `envAllOk` (two connectors, everything succeeds) the
queried connector indices are exactly `[0, 1]` and the pdos queries visit
exactly the four sites of each of the two connectors, in order. -/
theorem claim_C5_witness :
    connCapsIndices (c_example_lstypec envAllOk 0).2 =
      List.range envAllOk.caps.num_connectors ∧
    pdosCallSites (c_example_lstypec envAllOk 0).2 =
      expectedPdosSites envAllOk.caps.num_connectors :=
  claim_C5_connector_enumeration envAllOk 0 rfl rfl rfl

/-- C6: every `libtypec_rs_get_pdos` invocation of any run passes as its
pdVersion argument exactly the `pd_version` field of the capabilities the
single preceding `libtypec_rs_get_capabilities` call produced. -/
theorem claim_C6_pd_version_threading (env : Env) (b : Nat) :
    ∀ e ∈ (c_example_lstypec env b).2, ∀ conn p o nr ty sct v r,
      e = Event.callGetPdos conn p o nr ty sct v r → v = env.caps.pd_version := by
  intro e he conn p o nr ty sct v r heq
  subst heq
  rcases trace_event_cases he with h | h | ⟨m, h⟩ | h | hm
  · simp at h
  · simp at h
  · simp at h
  · simp at h
  · rcases loop_event_shape hm with ⟨c2, h⟩ | ⟨c2, p2, ty2, h⟩ | ⟨c2, p2, ty2, _, h⟩ |
      ⟨c2, p2, ty2, i2, _, _, h⟩ | ⟨c2, p2, ty2, _, h⟩ | ⟨c2, h⟩ | ⟨rc2, c2, h⟩ |
      ⟨rc2, c2, i2, _, _, h⟩ | ⟨rc2, c2, _, h⟩ | ⟨rc2, c2, h⟩ | ⟨m2, h⟩
    · simp at h
    · simp only [Event.callGetPdos.injEq] at h
      exact h.2.2.2.2.2.2.1
    · simp at h
    · simp at h
    · simp at h
    · simp at h
    · simp at h
    · simp at h
    · simp at h
    · simp at h
    · simp at h

/-- C6 (witness): the first pdos call of `envAllOk`'s run carries pdVersion
768, which is exactly `envAllOk.caps.pd_version`. -/
theorem claim_C6_witness : (768 : Nat) = envAllOk.caps.pd_version := by
  refine claim_C6_pd_version_threading envAllOk 0
    (Event.callGetPdos 0 false 0 0 PdoType.Source
      PdoSourceCapabilitiesType.CurrentSupportedSourceCapabilities 768 0) ?_
    0 false 0 0 PdoType.Source
    PdoSourceCapabilitiesType.CurrentSupportedSourceCapabilities 768 0 rfl
  decide

/-- C7 (counterexample): when `libtypec_rs_get_capabilities` fails with the
generic error `-5`, the program returns `-5` — not the claimed exit status 1
(nor 0 or 2).  The example propagates negative error codes; it never maps
failures to the 0/1/2 CLI convention. -/
theorem claim_C7_counterexample :
    (c_example_lstypec envCapsFail 0).1 = -5 ∧
    ((-5 : Int) ≠ 0 ∧ (-5 : Int) ≠ 1 ∧ (-5 : Int) ≠ 2) :=
  ⟨rfl, by decide⟩

/-- All error codes the oracle can return are negative (the C API contract:
0 on success, a negative errno-style code on failure). -/
def ErrnoValid (env : Env) : Prop :=
  (env.new_null = true → env.new_ret < 0) ∧
  env.caps_ret ≤ 0 ∧
  (∀ conn, env.conn_caps_ret conn ≤ 0) ∧
  (∀ conn p ty, env.pdos_ret conn p ty ≤ 0) ∧
  (∀ conn, env.cable_ret conn ≤ 0) ∧
  (∀ rc conn, env.alt_ret rc conn ≤ 0) ∧
  (∀ rc conn, env.pd_msg_ret rc conn ≤ 0)

/-- C7 (amended): the exit status is 0 on success; on failure it is the
failing call's negative return code — the trace ends with the failing call
followed by its error report, and the status equals that call's return code
— never the CLI codes 1 or 2. -/
theorem claim_C7_amended_exit_status (env : Env) (b : Nat) (h : ErrnoValid env) :
    (c_example_lstypec env b).1 = 0 ∨
    ((c_example_lstypec env b).1 < 0 ∧
     ∃ pre e m, (c_example_lstypec env b).2 = pre ++ [e, Event.reportError m] ∧
       eventRet e = some (c_example_lstypec env b).1) := by
  obtain ⟨hn, hcap, hcc, hp, hcb, hal, hpm⟩ := h
  by_cases hnull : env.new_null = true
  · rw [run_new_null hnull]
    exact Or.inr ⟨hn hnull, [], Event.callNew (backend_type b) env.new_ret,
      "Failed to create TypecRs instance", rfl, rfl⟩
  · have h0 : env.new_null = false := by simpa using hnull
    by_cases h1 : env.caps_ret = 0
    · cases hl : loopConnectors env env.caps.num_connectors with
      | error x =>
        obtain ⟨r, evs⟩ := x
        rw [run_loop_error h0 h1 hl]
        right
        obtain ⟨conn, _, s, hs, herr⟩ := errOf_loop_inv (r := r) (by rw [hl]; rfl)
        obtain ⟨hr0, hsrc⟩ := connSteps_errOf_inv hs herr
        have hle : r ≤ 0 := by
          rcases hsrc with h' | ⟨p, ty, h'⟩ | h' | ⟨rc, h'⟩ | ⟨rc, h'⟩
          · rw [h']
            exact hcc conn
          · rw [h']
            exact hp conn p ty
          · rw [h']
            exact hcb conn
          · rw [h']
            exact hal rc conn
          · rw [h']
            exact hpm rc conn
        refine ⟨lt_of_le_of_ne hle hr0, ?_⟩
        obtain ⟨pre, e, m, h2, h3⟩ := loop_error_shape hl
        refine ⟨Event.callNew (backend_type b) env.new_ret ::
          Event.callGetCapabilities env.caps_ret :: pre, e, m, ?_, h3⟩
        rw [show ((r, Event.callNew (backend_type b) env.new_ret ::
            Event.callGetCapabilities env.caps_ret :: evs) : Int × List Event).2 =
            Event.callNew (backend_type b) env.new_ret ::
            Event.callGetCapabilities env.caps_ret :: evs from rfl, h2]
        rfl
      | ok evs =>
        rw [run_loop_ok h0 h1 hl]
        exact Or.inl rfl
    · rw [run_caps_err h0 h1]
      exact Or.inr ⟨lt_of_le_of_ne hcap h1,
        [Event.callNew (backend_type b) env.new_ret],
        Event.callGetCapabilities env.caps_ret,
        "Failed to get capabilities", rfl, rfl⟩

/-- C7 (witness): in `envCapsFail` (capability query fails with `-5`) the
status is negative and the trace ends with the failed capability call, whose
return code `-5` is exactly the exit status. -/
theorem claim_C7_witness :
    (c_example_lstypec envCapsFail 3).1 = 0 ∨
    ((c_example_lstypec envCapsFail 3).1 < 0 ∧
     ∃ pre e m, (c_example_lstypec envCapsFail 3).2 = pre ++ [e, Event.reportError m] ∧
       eventRet e = some (c_example_lstypec envCapsFail 3).1) :=
  claim_C7_amended_exit_status envCapsFail 3
    ⟨fun h => absurd h (by decide), by decide, fun _ => le_refl 0,
     fun _ _ _ => le_refl 0, fun _ => le_refl 0, fun _ _ => le_refl 0,
     fun _ _ => le_refl 0⟩

/-- C8: if `libtypec_rs_new` fails (stores NULL and returns a negative
code), the run reports the failure and returns that negative code, and its
whole trace is the `new` call followed by the error report — no further
library call is made on the handle. -/
theorem claim_C8_creation_failure (env : Env) (b : Nat)
    (h1 : env.new_null = true) (h2 : env.new_ret < 0) :
    (c_example_lstypec env b).1 = env.new_ret ∧
    (c_example_lstypec env b).1 < 0 ∧
    (c_example_lstypec env b).2 =
      [Event.callNew (backend_type b) env.new_ret,
       Event.reportError "Failed to create TypecRs instance"] := by
  rw [run_new_null h1]
  exact ⟨rfl, h2, rfl⟩

/-- C8 (witness): in `envNewFail` (creation fails with `-12`, NULL handle)
the program returns `-12` after the new call and the error report only. -/
theorem claim_C8_witness :
    (c_example_lstypec envNewFail 0).1 = envNewFail.new_ret ∧
    (c_example_lstypec envNewFail 0).1 < 0 ∧
    (c_example_lstypec envNewFail 0).2 =
      [Event.callNew (backend_type 0) envNewFail.new_ret,
       Event.reportError "Failed to create TypecRs instance"] :=
  claim_C8_creation_failure envNewFail 0 rfl (by decide)

/-- C9: after successful instance creation, `libtypec_rs_destroy` is invoked
if and only if the run completes with status 0; every early error return —
a fatal call failure, including `-ENOTSUP` from `get_capabilities` or
`get_conn_capabilities` — returns without destroying the instance. -/
theorem claim_C9_destroy_iff_success (env : Env) (b : Nat)
    (h0 : env.new_null = false) :
    Event.destroyInstance ∈ (c_example_lstypec env b).2 ↔
      (c_example_lstypec env b).1 = 0 := by
  by_cases h1 : env.caps_ret = 0
  · cases hl : loopConnectors env env.caps.num_connectors with
    | error x =>
      obtain ⟨r, evs⟩ := x
      have hr : r ≠ 0 := loop_errOf_ne_zero (r := r) (by rw [hl]; rfl)
      have hnm : Event.destroyInstance ∉ evs := by
        intro hmem
        exact destroyInstance_not_in_loop env env.caps.num_connectors (by rw [hl]; exact hmem)
      rw [run_loop_error h0 h1 hl]
      constructor
      · intro hmem
        exfalso
        have hmem' : Event.destroyInstance ∈
            Event.callNew (backend_type b) env.new_ret ::
            Event.callGetCapabilities env.caps_ret :: evs := hmem
        simp only [List.mem_cons] at hmem'
        rcases hmem' with h | h | h
        · simp at h
        · simp at h
        · exact hnm h
      · intro hres
        exact absurd hres hr
    | ok evs =>
      rw [run_loop_ok h0 h1 hl]
      constructor
      · intro _
        rfl
      · intro _
        show Event.destroyInstance ∈ Event.callNew (backend_type b) env.new_ret ::
          Event.callGetCapabilities env.caps_ret :: (evs ++ [Event.destroyInstance])
        simp
  · rw [run_caps_err h0 h1]
    constructor
    · intro hmem
      exfalso
      have hmem' : Event.destroyInstance ∈
          [Event.callNew (backend_type b) env.new_ret,
           Event.callGetCapabilities env.caps_ret,
           Event.reportError "Failed to get capabilities"] := hmem
      simp at hmem'
    · intro hres
      exact absurd hres h1

/-- C9 (witness): in `envAllOk` the run completes with 0 and the trace
contains the instance destruction. -/
theorem claim_C9_witness :
    Event.destroyInstance ∈ (c_example_lstypec envAllOk 0).2 :=
  (claim_C9_destroy_iff_success envAllOk 0 rfl).mpr rfl

/-- C10: if every successful variable-length call stores a non-NULL pointer
valid for the stored length, then no `assert(out_pdos)` fails and every
element access of the print loops is at an index below the stored length on
a non-NULL pointer. -/
theorem claim_C10_memory_safety (env : Env) (b : Nat)
    (hp : ∀ conn p ty, env.pdos_ret conn p ty = 0 → (env.pdos_out conn p ty).ptr ≠ 0)
    (ha : ∀ rc conn, env.alt_ret rc conn = 0 → (env.alt_out rc conn).ptr ≠ 0) :
    (∀ ptr, Event.assertPdos ptr ∈ (c_example_lstypec env b).2 → ptr ≠ 0) ∧
    (∀ t i, Event.accessElem t i ∈ (c_example_lstypec env b).2 →
      i < t.len ∧ t.ptr ≠ 0) := by
  constructor
  · intro ptr hmem
    rcases trace_event_cases hmem with h | h | ⟨m, h⟩ | h | hm
    · simp at h
    · simp at h
    · simp at h
    · simp at h
    · rcases loop_event_shape hm with ⟨c2, h⟩ | ⟨c2, p2, ty2, h⟩ | ⟨c2, p2, ty2, h0, h⟩ |
        ⟨c2, p2, ty2, i2, _, _, h⟩ | ⟨c2, p2, ty2, _, h⟩ | ⟨c2, h⟩ | ⟨rc2, c2, h⟩ |
        ⟨rc2, c2, i2, _, _, h⟩ | ⟨rc2, c2, _, h⟩ | ⟨rc2, c2, h⟩ | ⟨m2, h⟩
      · simp at h
      · simp at h
      · simp only [Event.assertPdos.injEq] at h
        rw [h]
        exact hp c2 p2 ty2 h0
      · simp at h
      · simp at h
      · simp at h
      · simp at h
      · simp at h
      · simp at h
      · simp at h
      · simp at h
  · intro t i hmem
    rcases trace_event_cases hmem with h | h | ⟨m, h⟩ | h | hm
    · simp at h
    · simp at h
    · simp at h
    · simp at h
    · rcases loop_event_shape hm with ⟨c2, h⟩ | ⟨c2, p2, ty2, h⟩ | ⟨c2, p2, ty2, h0, h⟩ |
        ⟨c2, p2, ty2, i2, h0, hi, h⟩ | ⟨c2, p2, ty2, _, h⟩ | ⟨c2, h⟩ | ⟨rc2, c2, h⟩ |
        ⟨rc2, c2, i2, h0, hi, h⟩ | ⟨rc2, c2, _, h⟩ | ⟨rc2, c2, h⟩ | ⟨m2, h⟩
      · simp at h
      · simp at h
      · simp at h
      · simp only [Event.accessElem.injEq] at h
        obtain ⟨rfl, rfl⟩ := h
        exact ⟨hi, hp c2 p2 ty2 h0⟩
      · simp at h
      · simp at h
      · simp at h
      · simp only [Event.accessElem.injEq] at h
        obtain ⟨rfl, rfl⟩ := h
        exact ⟨hi, ha rc2 c2 h0⟩
      · simp at h
      · simp at h
      · simp at h

/-- C10 (witness): in `envAllOk` (all stored pointers non-NULL) no assertion
fails and every access is in bounds. -/
theorem claim_C10_witness :
    (∀ ptr, Event.assertPdos ptr ∈ (c_example_lstypec envAllOk 1).2 → ptr ≠ 0) ∧
    (∀ t i, Event.accessElem t i ∈ (c_example_lstypec envAllOk 1).2 →
      i < t.len ∧ t.ptr ≠ 0) :=
  claim_C10_memory_safety envAllOk 1
    (fun _ _ _ _ => Nat.one_ne_zero) (fun _ _ _ => Nat.succ_ne_zero 3)

end Lstypec
